import Mathlib

/-!
Verification development for the oura-bot baseline/metrics engine.

Shallow embedding of the Python source:
  * `oura_agent/storage/baselines.py` (`get_default_baselines`, `load_baselines`,
    `update_baselines`; the same code is duplicated in `modal_agent.py`)
  * `oura_agent/extraction/metrics.py` (`extract_metrics`, `extract_detailed_sleep`)
  * `oura_agent/storage/metrics.py` (`save_daily_metrics`)
  * `oura_agent/utils.py` (`prune_old_data`)
  * the sleep-session selection loop of `oura_agent/api/oura.py`
    (`get_oura_sleep_data`)

Python dictionaries are modelled as association lists in insertion order,
Python lists as Lean lists, numbers as rationals (with integer fields where
the payload is integral), `None` as `Option.none`.  Slicing `l[-w:]` is
`pyTail`, `round` is round-half-to-even, `//` on integers is `Int.fdiv`.
-/

namespace OuraBot

/-! ## Python list / dict primitives -/

/-- Python `l[-w:]`.  For `w = 0` Python returns the whole list
(`l[-0:] = l[0:]`), otherwise the last `w` elements. -/
def pyTail (w : Nat) (l : List α) : List α :=
  if w = 0 then l else l.drop (l.length - w)

/-- Update the value stored at key `k` of an association list in place
(first occurrence), as Python `d[k] = f(d[k])` does for a present key. -/
def alUpdate (k : String) (f : β → β) : List (String × β) → List (String × β)
  | [] => []
  | (k', v) :: t => if k' = k then (k', f v) :: t else (k', v) :: alUpdate k f t

/-- Python `base.copy()` followed by `base.update(upd)`: keys already present
keep their position and get the new value, new keys are appended in `upd`
order. -/
def pyDictUpdate (base upd : List (String × β)) : List (String × β) :=
  upd.foldl
    (fun acc kv =>
      if (List.lookup kv.1 acc).isSome then alUpdate kv.1 (fun _ => kv.2) acc
      else acc ++ [kv])
    base

/-! ## Python numeric primitives -/

/-- Python 3 `round` on an exact value: round half to even. -/
def roundHalfEvenQ (x : ℚ) : ℤ :=
  if x - ⌊x⌋ < 1/2 then ⌊x⌋
  else if 1/2 < x - ⌊x⌋ then ⌊x⌋ + 1
  else if ⌊x⌋ % 2 = 0 then ⌊x⌋ else ⌊x⌋ + 1

/-- Python `round(x, 1)`. -/
def pyRound1 (x : ℚ) : ℚ := (roundHalfEvenQ (10 * x) : ℚ) / 10

/-- `⌊√x⌋` for a nonnegative rational, computed with `Nat.sqrt`. -/
def floorSqrtQ (x : ℚ) : ℕ := Nat.sqrt (x.num.toNat * x.den) / x.den

/-- Round `√x` half to even to the nearest integer (`x ≥ 0`), by comparing
`4x` with the square of the odd number `2⌊√x⌋ + 1`. -/
def roundSqrtHalfEven (x : ℚ) : ℕ :=
  if 4 * x < ((2 * floorSqrtQ x + 1 : ℕ) : ℚ) ^ 2 then floorSqrtQ x
  else if ((2 * floorSqrtQ x + 1 : ℕ) : ℚ) ^ 2 < 4 * x then floorSqrtQ x + 1
  else if floorSqrtQ x % 2 = 0 then floorSqrtQ x else floorSqrtQ x + 1

/-- `statistics.mean`. -/
def qMean (l : List ℚ) : ℚ := l.sum / l.length

/-- `statistics.stdev` squared: sample variance with `N - 1` denominator. -/
def sampleVar (l : List ℚ) : ℚ :=
  ((l.map (fun x => (x - qMean l) ^ 2)).sum) / ((l.length : ℚ) - 1)

/-- `round(statistics.stdev(l), 1)`: one decimal, half to even. -/
def stdRound1 (l : List ℚ) : ℚ := (roundSqrtHalfEven (100 * sampleVar l) : ℚ) / 10

/-! ## Baselines (`oura_agent/storage/baselines.py`) -/

/-- Per-metric entry `{mean, std, values}` of the baselines file. -/
structure MetricData where
  mean : ℚ
  std : ℚ
  values : List ℚ
deriving DecidableEq

/-- The baselines singleton
`{last_updated, dates, data_points, window_days, metrics}`. -/
structure Baselines where
  last_updated : Option String
  dates : List String
  data_points : ℕ
  window_days : ℕ
  metrics : List (String × MetricData)
deriving DecidableEq

/-- `BASELINE_WINDOW_DAYS` from `oura_agent/config.py`. -/
def BASELINE_WINDOW_DAYS : ℕ := 60

/-- `get_default_baselines()`. -/
def get_default_baselines : Baselines :=
  { last_updated := none
    dates := []
    data_points := 0
    window_days := BASELINE_WINDOW_DAYS
    metrics :=
      [ ("sleep_score", ⟨75, 10, []⟩)
      , ("hrv", ⟨45, 10, []⟩)
      , ("deep_sleep_minutes", ⟨70, 15, []⟩)
      , ("light_sleep_minutes", ⟨200, 30, []⟩)
      , ("rem_sleep_minutes", ⟨90, 20, []⟩)
      , ("sleep_efficiency", ⟨85, 5, []⟩)
      , ("latency_minutes", ⟨15, 10, []⟩)
      , ("total_sleep_minutes", ⟨420, 45, []⟩)
      , ("resting_hr", ⟨55, 5, []⟩)
      , ("daytime_hr_avg", ⟨70, 8, []⟩)
      , ("readiness", ⟨75, 10, []⟩)
      , ("stress_high", ⟨60, 30, []⟩)
      , ("recovery_high", ⟨120, 45, []⟩)
      , ("workout_minutes", ⟨30, 20, []⟩)
      , ("workout_calories", ⟨200, 150, []⟩) ] }

/-- `values.pop(date_index)` guarded by `len(values) > date_index`. -/
def popAt (i : ℕ) (md : MetricData) : MetricData :=
  if i < md.values.length then { md with values := md.values.eraseIdx i } else md

/-- The correction phase of `update_baselines`: if `date` is already tracked,
pop the value at its index from every metric whose `values` list is long
enough, and remove the date. -/
def removeDateValues (b : Baselines) (date : String) : Baselines :=
  if date ∈ b.dates then
    { b with
      metrics := b.metrics.map (fun p => (p.1, popAt (b.dates.indexOf date) p.2))
      dates := b.dates.erase date }
  else b

/-- Body of the per-metric update: append the new value, apply the window,
and recompute `mean`/`std` (`values[0]`/`0` at a single value, untouched at
zero values). -/
def recomputeMetric (window : ℕ) (v : ℚ) (md : MetricData) : MetricData :=
  let values := pyTail window (md.values ++ [v])
  if 2 ≤ values.length then
    { mean := pyRound1 (qMean values), std := stdRound1 values, values := values }
  else if values.length = 1 then
    { mean := values.headI, std := 0, values := values }
  else { md with values := values }

/-- One step of the `for metric, value in new_metrics.items()` loop of
`update_baselines`: known metrics with a non-`None` value get the value
appended, the window applied, and mean/std recomputed. -/
def applyMetric (window : ℕ) (acc : List (String × MetricData)) (kv : String × Option ℚ) :
    List (String × MetricData) :=
  match kv.2 with
  | none => acc
  | some v =>
    if (List.lookup kv.1 acc).isSome then alUpdate kv.1 (recomputeMetric window v) acc
    else acc

/-- `update_baselines(baselines, new_metrics, date, window)`.  The wall clock
read by `now_nyc().isoformat()` is passed in as `now`.  `new_metrics` is the
Python dict in insertion order; a `none` value is JSON `null`. -/
def update_baselines (b : Baselines) (new_metrics : List (String × Option ℚ))
    (date : String) (window : ℕ) (now : String) : Baselines :=
  let b1 := removeDateValues b date
  let dates2 := pyTail window (b1.dates ++ [date])
  let metrics2 := new_metrics.foldl (applyMetric window) b1.metrics
  { last_updated := some now
    dates := dates2
    data_points := ((List.lookup "sleep_score" metrics2).map (fun md => md.values.length)).getD 0
    window_days := b.window_days
    metrics := metrics2 }

/-- Persisted baselines file as JSON: the `metrics` key may be absent. -/
structure PBaselines where
  last_updated : Option String
  dates : List String
  data_points : ℕ
  window_days : ℕ
  metrics : Option (List (String × MetricData))
deriving DecidableEq

/-- View of the in-code default baselines as a persisted-shape record. -/
def defaultPBaselines : PBaselines :=
  { last_updated := get_default_baselines.last_updated
    dates := get_default_baselines.dates
    data_points := get_default_baselines.data_points
    window_days := get_default_baselines.window_days
    metrics := some get_default_baselines.metrics }

/-- `load_baselines()`: the persisted file contents (or `none` when the file
does not exist) are passed in explicitly.  Missing default metric keys are
added; everything else is returned as persisted. -/
def load_baselines (persisted : Option PBaselines) : PBaselines :=
  match persisted with
  | none => defaultPBaselines
  | some p =>
    let m0 := p.metrics.getD []
    let m1 := get_default_baselines.metrics.foldl
      (fun acc kv => if (List.lookup kv.1 acc).isSome then acc else acc ++ [kv]) m0
    { p with metrics := some m1 }

/-! ## ISO datetimes (`datetime.fromisoformat`, for workout durations) -/

/-- Leap year test of the proleptic Gregorian calendar. -/
def isLeap (y : ℤ) : Bool := (y % 4 == 0 && y % 100 != 0) || y % 400 == 0

/-- Days in a month. -/
def daysInMonth (y m : ℤ) : ℤ :=
  if m = 2 then (if isLeap y then 29 else 28)
  else if m = 4 ∨ m = 6 ∨ m = 9 ∨ m = 11 then 30
  else 31

/-- Days since 1970-01-01 of a civil date (Howard Hinnant's algorithm, as
used by any proleptic-Gregorian datetime implementation). -/
def daysFromCivil (y m d : ℤ) : ℤ :=
  let y' := if m ≤ 2 then y - 1 else y
  let era := Int.fdiv y' 400
  let yoe := y' - era * 400
  let mp := (m + 9) % 12
  let doy := Int.fdiv (153 * mp + 2) 5 + d - 1
  let doe := yoe * 365 + Int.fdiv yoe 4 - Int.fdiv yoe 100 + doy
  era * 146097 + doe - 719468

/-- Parse a fixed-width decimal field. -/
def parseDigits (width : ℕ) (s : String) : Option ℕ :=
  if s.length = width ∧ s.data.all Char.isDigit then s.toNat? else none

/-- Parse `YYYY-MM-DD`, validating the calendar. -/
def parseIsoDate (s : String) : Option (ℤ × ℤ × ℤ) :=
  match s.splitOn "-" with
  | [ys, ms, ds] => do
    let y ← parseDigits 4 ys
    let m ← parseDigits 2 ms
    let d ← parseDigits 2 ds
    if 1 ≤ m ∧ m ≤ 12 ∧ 1 ≤ d ∧ (d : ℤ) ≤ daysInMonth y m then
      some ((y : ℤ), (m : ℤ), (d : ℤ))
    else none
  | _ => none

/-- Parse `HH:MM[:SS[.ffffff]]` to microseconds within the day. -/
def parseIsoTime (s : String) : Option ℤ := do
  let secPart (t : String) : Option ℤ := do
    match t.splitOn "." with
    | [ss] => do
      let sec ← parseDigits 2 ss
      if sec ≤ 59 then some ((sec : ℤ) * 1000000) else none
    | [ss, fs] => do
      let sec ← parseDigits 2 ss
      if sec ≤ 59 ∧ 1 ≤ fs.length ∧ fs.length ≤ 6 ∧ fs.data.all Char.isDigit then
        let micro := (fs.toNat?.getD 0) * 10 ^ (6 - fs.length)
        some ((sec : ℤ) * 1000000 + (micro : ℤ))
      else none
    | _ => none
  match s.splitOn ":" with
  | [hs, mins] => do
    let h ← parseDigits 2 hs
    let mi ← parseDigits 2 mins
    if h ≤ 23 ∧ mi ≤ 59 then some (((h : ℤ) * 60 + (mi : ℤ)) * 60000000) else none
  | [hs, mins, rest] => do
    let h ← parseDigits 2 hs
    let mi ← parseDigits 2 mins
    let us ← secPart rest
    if h ≤ 23 ∧ mi ≤ 59 then some (((h : ℤ) * 60 + (mi : ℤ)) * 60000000 + us) else none
  | _ => none

/-- Parse `±HH:MM` UTC offsets to signed microseconds. -/
def parseIsoOffset (sign : ℤ) (s : String) : Option ℤ :=
  match s.splitOn ":" with
  | [hs, mins] => do
    let h ← parseDigits 2 hs
    let mi ← parseDigits 2 mins
    if h ≤ 23 ∧ mi ≤ 59 then some (sign * ((h : ℤ) * 60 + (mi : ℤ)) * 60000000) else none
  | _ => none

/-- `datetime.fromisoformat` restricted to the shapes the device emits:
`YYYY-MM-DD[THH:MM[:SS[.ffffff]][±HH:MM]]`.  Returns the instant in
microseconds since the epoch (shifted by the offset when aware) and whether
the value is offset-aware.  `none` models `ValueError`. -/
def pyFromIso (s : String) : Option (ℤ × Bool) := do
  let withTime (datePart timePart : String) : Option (ℤ × Bool) := do
    let (y, m, d) ← parseIsoDate datePart
    if timePart = "" then
      some (daysFromCivil y m d * 86400000000, false)
    else
      let plusParts := timePart.splitOn "+"
      match plusParts with
      | [t, off] => do
        let us ← parseIsoTime t
        let offUs ← parseIsoOffset 1 off
        some (daysFromCivil y m d * 86400000000 + us - offUs, true)
      | [t] =>
        match t.splitOn "-" with
        | [t', off] => do
          let us ← parseIsoTime t'
          let offUs ← parseIsoOffset (-1) off
          some (daysFromCivil y m d * 86400000000 + us - offUs, true)
        | [t'] => do
          let us ← parseIsoTime t'
          some (daysFromCivil y m d * 86400000000 + us, false)
        | _ => none
      | _ => none
  match s.splitOn "T" with
  | [datePart] => withTime datePart ""
  | [datePart, timePart] => withTime datePart timePart
  | _ => none

/-- `_workout_duration_minutes(start_dt, end_dt)`: `0` for missing/empty
strings, parse failures (`ValueError`) and naive/aware mixes (`TypeError`);
otherwise the difference truncated toward zero to whole minutes
(`int(total_seconds / 60)`). -/
def workout_duration_minutes (start_dt end_dt : Option String) : ℤ :=
  match start_dt, end_dt with
  | some s, some e =>
    if s = "" ∨ e = "" then 0
    else
      match pyFromIso (s.replace "Z" "+00:00"), pyFromIso (e.replace "Z" "+00:00") with
      | some (a, aw1), some (b, aw2) =>
        if aw1 = aw2 then Int.tdiv (b - a) 60000000 else 0
      | _, _ => 0
  | _, _ => 0

/-! ## Raw device payload records -/

/-- A summary-metric value: number, string, list of strings, or JSON null. -/
inductive MVal where
  | num (q : ℚ)
  | str (s : String)
  | strList (l : List String)
  | null
deriving DecidableEq

/-- Number-or-null. -/
def optNum : Option ℚ → MVal
  | some q => .num q
  | none => .null

/-- String-or-null. -/
def optStr : Option String → MVal
  | some s => .str s
  | none => .null

/-- A `daily_sleep` record. -/
structure DailySleepRec where
  score : Option ℚ
deriving DecidableEq

/-- The `contributors` object nested in a sleep session's readiness block. -/
structure ReadinessContributors where
  activity_balance : Option ℚ
  body_temperature : Option ℚ
  hrv_balance : Option ℚ
  previous_day_activity : Option ℚ
  previous_night : Option ℚ
  recovery_index : Option ℚ
  resting_heart_rate : Option ℚ
  sleep_balance : Option ℚ
deriving DecidableEq

/-- Default (absent) contributors object. -/
def emptyContributors : ReadinessContributors :=
  ⟨none, none, none, none, none, none, none, none⟩

/-- The readiness object embedded in a sleep session. -/
structure EmbeddedReadiness where
  score : Option ℚ
  temperature_deviation : Option ℚ
  temperature_trend_deviation : Option ℚ
  contributors : Option ReadinessContributors
deriving DecidableEq

/-- A detailed sleep session record (the `sleep` endpoint). -/
structure SleepRec where
  bedtime_start : Option String
  bedtime_end : Option String
  type : Option String
  time_in_bed : Option ℤ
  total_sleep_duration : Option ℤ
  awake_time : Option ℤ
  latency : Option ℤ
  deep_sleep_duration : Option ℤ
  light_sleep_duration : Option ℤ
  rem_sleep_duration : Option ℤ
  efficiency : Option ℚ
  restless_periods : Option ℚ
  average_heart_rate : Option ℚ
  lowest_heart_rate : Option ℚ
  average_hrv : Option ℚ
  average_breath : Option ℚ
  heart_rate_items : List (Option ℚ)
  hrv_items : List (Option ℚ)
  sleep_phase_5_min : Option String
  readiness : Option EmbeddedReadiness
deriving DecidableEq

/-- A sleep session with every field absent. -/
def emptySleepRec : SleepRec :=
  ⟨none, none, none, none, none, none, none, none, none, none, none, none,
   none, none, none, none, [], [], none, none⟩

/-- A `daily_readiness` record. -/
structure ReadinessRec where
  score : Option ℚ
  temperature_deviation : Option ℚ
deriving DecidableEq

/-- A `daily_activity` record. -/
structure ActivityRec where
  score : Option ℚ
  steps : Option ℚ
deriving DecidableEq

/-- A `daily_stress` record (durations in seconds). -/
structure StressRec where
  stress_high : Option ℤ
  recovery_high : Option ℤ
  day_summary : Option String
deriving DecidableEq

/-- A workout record. -/
structure WorkoutRec where
  activity : Option String
  label : Option String
  intensity : Option String
  start_datetime : Option String
  end_datetime : Option String
  calories : Option ℚ
  distance : Option ℚ
  source : Option String
deriving DecidableEq

/-- A daytime heart-rate reading. -/
structure HRRec where
  bpm : Option ℚ
  source : Option String
deriving DecidableEq

/-- The source map handed to extraction: one list of records per logical
endpoint; an absent endpoint is the empty list (both are falsy in Python). -/
structure OuraData where
  daily_sleep : List DailySleepRec
  sleep : List SleepRec
  daily_readiness : List ReadinessRec
  daily_activity : List ActivityRec
  daily_stress : List StressRec
  workouts : List WorkoutRec
  daytime_hr : List HRRec
deriving DecidableEq

/-- `OuraData` with every source empty. -/
def emptyOuraData : OuraData := ⟨[], [], [], [], [], [], []⟩

/-! ## Metric extraction (`oura_agent/extraction/metrics.py`) -/

/-- `sec // 60 if sec else None` with `sec = rec.get(key, 0)`: seconds to
minutes by floor division, `null` when the field is absent, null, or 0. -/
def durationMinutes (o : Option ℤ) : MVal :=
  match o with
  | some s => if s = 0 then .null else .num ((Int.fdiv s 60 : ℤ) : ℚ)
  | none => .null

/-- `round(sec / 60) if sec else None`: seconds to minutes by Python
banker's rounding, `null` when absent, null, or 0. -/
def stressMinutes (o : Option ℤ) : MVal :=
  match o with
  | some s => if s = 0 then .null else .num ((roundHalfEvenQ ((s : ℚ) / 60) : ℤ) : ℚ)
  | none => .null

/-- `extract_metrics(oura_data)`. -/
def extract_metrics (od : OuraData) : List (String × MVal) :=
  (match od.daily_sleep with
   | [] => []
   | sleep :: _ => [("sleep_score", optNum sleep.score)]) ++
  (match od.sleep with
   | [] => []
   | sleep_detail :: _ =>
     [ ("deep_sleep_minutes", durationMinutes sleep_detail.deep_sleep_duration)
     , ("light_sleep_minutes", durationMinutes sleep_detail.light_sleep_duration)
     , ("rem_sleep_minutes", durationMinutes sleep_detail.rem_sleep_duration)
     , ("total_sleep_minutes", durationMinutes sleep_detail.total_sleep_duration)
     , ("sleep_efficiency", optNum sleep_detail.efficiency)
     , ("hrv", optNum sleep_detail.average_hrv)
     , ("avg_hr", optNum sleep_detail.average_heart_rate)
     , ("avg_breath", optNum sleep_detail.average_breath)
     , ("latency_minutes", durationMinutes sleep_detail.latency)
     , ("restless_periods", optNum sleep_detail.restless_periods)
     , ("resting_hr", optNum sleep_detail.lowest_heart_rate) ]) ++
  (match od.daily_readiness with
   | [] => []
   | readiness :: _ =>
     [ ("readiness", optNum readiness.score)
     , ("temperature_deviation", optNum readiness.temperature_deviation) ]) ++
  (match od.daily_activity with
   | [] => []
   | activity :: _ =>
     [ ("activity_score", optNum activity.score)
     , ("steps", optNum activity.steps) ]) ++
  (match od.daily_stress with
   | [] => []
   | stress :: _ =>
     [ ("stress_high", stressMinutes stress.stress_high)
     , ("recovery_high", stressMinutes stress.recovery_high)
     , ("stress_day_summary", optStr stress.day_summary) ]) ++
  (match od.workouts with
   | [] => []
   | _ :: _ =>
     let workouts := od.workouts
     [ ("workout_count", .num (workouts.length : ℚ))
     , ("workout_calories", .num ((workouts.map (fun w => w.calories.getD 0)).sum))
     , ("workout_minutes", .num
         (((workouts.map (fun w =>
             workout_duration_minutes w.start_datetime w.end_datetime)).sum : ℤ) : ℚ))
     , ("workout_activities", .strList (workouts.filterMap (fun w =>
         match w.activity with
         | some a => if a = "" then none else some a
         | none => none))) ]) ++
  (match od.daytime_hr with
   | [] => []
   | _ :: _ =>
     let bpms := od.daytime_hr.filterMap (fun r =>
       match r.bpm with
       | some b => if b = 0 then none else some b
       | none => none)
     match bpms with
     | [] => []
     | _ :: _ =>
       [ ("daytime_hr_avg", .num (pyRound1 (bpms.sum / (bpms.length : ℚ))))
       , ("daytime_hr_min", .num ((bpms.min?).getD 0))
       , ("daytime_hr_max", .num ((bpms.max?).getD 0))
       , ("daytime_hr_samples", .num (bpms.length : ℚ)) ])

/-- `extract_detailed_sleep(oura_data)`: `{}` when no sleep session is
present, otherwise the detailed structure for the first session. -/
def extract_detailed_sleep (od : OuraData) : List (String × MVal) :=
  match od.sleep with
  | [] => []
  | sleep :: _ =>
    [ ("bedtime_start", optStr sleep.bedtime_start)
    , ("bedtime_end", optStr sleep.bedtime_end)
    , ("time_in_bed_minutes", .num ((Int.fdiv (sleep.time_in_bed.getD 0) 60 : ℤ) : ℚ))
    , ("total_sleep_minutes", .num ((Int.fdiv (sleep.total_sleep_duration.getD 0) 60 : ℤ) : ℚ))
    , ("awake_minutes", .num ((Int.fdiv (sleep.awake_time.getD 0) 60 : ℤ) : ℚ))
    , ("latency_minutes", .num ((Int.fdiv (sleep.latency.getD 0) 60 : ℤ) : ℚ))
    , ("deep_sleep_minutes", .num ((Int.fdiv (sleep.deep_sleep_duration.getD 0) 60 : ℤ) : ℚ))
    , ("light_sleep_minutes", .num ((Int.fdiv (sleep.light_sleep_duration.getD 0) 60 : ℤ) : ℚ))
    , ("rem_sleep_minutes", .num ((Int.fdiv (sleep.rem_sleep_duration.getD 0) 60 : ℤ) : ℚ))
    , ("efficiency", optNum sleep.efficiency)
    , ("restless_periods", optNum sleep.restless_periods)
    , ("average_hr", optNum sleep.average_heart_rate)
    , ("lowest_hr", optNum sleep.lowest_heart_rate)
    , ("average_hrv", optNum sleep.average_hrv)
    , ("average_breath", optNum sleep.average_breath) ] ++
    (let hr_values := sleep.heart_rate_items.filterMap id
     match hr_values with
     | [] => []
     | _ :: _ =>
       [ ("hr_min", .num ((hr_values.min?).getD 0))
       , ("hr_max", .num ((hr_values.max?).getD 0))
       , ("hr_range", .num ((hr_values.max?).getD 0 - (hr_values.min?).getD 0)) ] ++
       (let third := hr_values.length / 3
        if 0 < third then
          [ ("hr_first_third_avg", .num (pyRound1 ((hr_values.take third).sum / (third : ℚ))))
          , ("hr_last_third_avg", .num (pyRound1 ((pyTail third hr_values).sum / (third : ℚ)))) ]
        else [])) ++
    (let hrv_values := sleep.hrv_items.filterMap id
     match hrv_values with
     | [] => []
     | _ :: _ =>
       [ ("hrv_min", .num ((hrv_values.min?).getD 0))
       , ("hrv_max", .num ((hrv_values.max?).getD 0))
       , ("hrv_range", .num ((hrv_values.max?).getD 0 - (hrv_values.min?).getD 0)) ] ++
       (let third := hrv_values.length / 3
        if 0 < third then
          [ ("hrv_first_third_avg", .num (pyRound1 ((hrv_values.take third).sum / (third : ℚ))))
          , ("hrv_last_third_avg", .num (pyRound1 ((pyTail third hrv_values).sum / (third : ℚ)))) ]
        else [])) ++
    (let sleep_phases := (sleep.sleep_phase_5_min.getD "").data
     match sleep_phases with
     | [] => []
     | _ :: _ =>
       let deepC := sleep_phases.count '1'
       let lightC := sleep_phases.count '2'
       let remC := sleep_phases.count '3'
       let awakeC := sleep_phases.count '4'
       let total := deepC + lightC + remC + awakeC
       (if 0 < total then
         [ ("deep_sleep_pct", .num (pyRound1 (100 * (deepC : ℚ) / (total : ℚ))))
         , ("light_sleep_pct", .num (pyRound1 (100 * (lightC : ℚ) / (total : ℚ))))
         , ("rem_sleep_pct", .num (pyRound1 (100 * (remC : ℚ) / (total : ℚ))))
         , ("awake_pct", .num (pyRound1 (100 * (awakeC : ℚ) / (total : ℚ)))) ]
        else []) ++
       [ ("phase_transitions",
          .num (((sleep_phases.zip sleep_phases.tail).countP (fun p => p.1 != p.2) : ℕ) : ℚ)) ]) ++
    (match sleep.readiness with
     | none => []
     | some readiness =>
       let contributors := readiness.contributors.getD emptyContributors
       [ ("readiness_score", optNum readiness.score)
       , ("temperature_deviation", optNum readiness.temperature_deviation)
       , ("temperature_trend", optNum readiness.temperature_trend_deviation)
       , ("contributor_activity_balance", optNum contributors.activity_balance)
       , ("contributor_body_temperature", optNum contributors.body_temperature)
       , ("contributor_hrv_balance", optNum contributors.hrv_balance)
       , ("contributor_previous_day_activity", optNum contributors.previous_day_activity)
       , ("contributor_previous_night", optNum contributors.previous_night)
       , ("contributor_recovery_index", optNum contributors.recovery_index)
       , ("contributor_resting_heart_rate", optNum contributors.resting_heart_rate)
       , ("contributor_sleep_balance", optNum contributors.sleep_balance) ])

/-! ## Sleep-session selection (`oura_agent/api/oura.py`) -/

/-- Python `needle in hay` on lists of characters. -/
def listInfix (n : List Char) : List Char → Bool
  | [] => n.isEmpty
  | c :: t => n.isPrefixOf (c :: t) || listInfix n t

/-- Python `needle in hay` on strings. -/
def pyInStr (needle hay : String) : Bool := listInfix needle.data hay.data

/-- The selection loop of `get_oura_sleep_data` (and `get_oura_daily_data`):
walk the fetched sessions in reverse, keep the first one whose
`bedtime_end` contains the wake date and whose `type` is `"long_sleep"`;
otherwise no valid main sleep was found and `data["sleep"] = []`. -/
def selectSleepSession (wake_date : String) (sleep_sessions : List SleepRec) :
    List SleepRec :=
  match sleep_sessions.reverse.find? (fun session =>
    pyInStr wake_date (session.bedtime_end.getD "") &&
      (session.type.getD "") == "long_sleep") with
  | some session => [session]
  | none => []

/-! ## Daily record store (`oura_agent/storage/metrics.py`) -/

/-- A persisted daily-record file: JSON whose three content keys may each be
absent. -/
structure StoredRecord where
  summary : Option (List (String × MVal))
  detailed_sleep : Option (List (String × MVal))
  detailed_workouts : Option (List (List (String × MVal)))
deriving DecidableEq

/-- A stored record with no keys. -/
def emptyStoredRecord : StoredRecord := ⟨none, none, none⟩

/-- The record dict `save_daily_metrics` writes. -/
structure DailyRecord where
  date : String
  summary : List (String × MVal)
  detailed_sleep : List (String × MVal)
  detailed_workouts : List (List (String × MVal))
deriving DecidableEq

/-- `save_daily_metrics(date, metrics, detailed_sleep, detailed_workouts,
merge)`.  `file` is the current content of the day's file (`none` when it
does not exist); the function returns the record written back. -/
def save_daily_metrics (file : Option StoredRecord) (date : String)
    (metrics : Option (List (String × MVal)))
    (detailed_sleep : Option (List (String × MVal)))
    (detailed_workouts : Option (List (List (String × MVal))))
    (merge : Bool) : DailyRecord :=
  let existing_data : StoredRecord :=
    if merge then file.getD emptyStoredRecord else emptyStoredRecord
  { date := date
    summary :=
      match metrics with
      | some m =>
        match merge, existing_data.summary with
        | true, some es => pyDictUpdate es m
        | _, _ => m
      | none => existing_data.summary.getD []
    detailed_sleep := detailed_sleep.getD (existing_data.detailed_sleep.getD [])
    detailed_workouts := detailed_workouts.getD (existing_data.detailed_workouts.getD []) }

/-! ## Retention (`oura_agent/utils.py::prune_old_data`) -/

/-- The on-disk areas `prune_old_data` touches, as lists of file stems
(`YYYY-MM-DD` date strings). -/
structure DataStore where
  raw : List String
  metricsFiles : List String
  briefs : List String
  interventions : List String
deriving DecidableEq

/-- Python `<` on strings: lexicographic comparison of code points. -/
def charListLt : List Char → List Char → Bool
  | [], [] => false
  | [], _ :: _ => true
  | _ :: _, [] => false
  | a :: as, b :: bs => if a < b then true else if b < a then false else charListLt as bs

/-- Python `a < b` on strings. -/
def pyStrLt (a b : String) : Bool := charListLt a.data b.data

/-- One pruning loop: iterate the directory listing and unlink every file
whose stem sorts before the cutoff string (`file_date < cutoff_str`). -/
def pruneDir (cutoff : String) (files : List String) : List String :=
  files.foldl (fun live f => if pyStrLt f cutoff then live.erase f else live) files

/-- `prune_old_data()` with `cutoff` the precomputed
`(now - RAW_WINDOW_DAYS).strftime("%Y-%m-%d")`.  All four areas — raw
snapshots, extracted metrics, briefs, and interventions — are pruned with
the same cutoff (conversation history is pruned by a separate function,
out of scope here). -/
def prune_old_data (cutoff : String) (s : DataStore) : DataStore :=
  { raw := pruneDir cutoff s.raw
    metricsFiles := pruneDir cutoff s.metricsFiles
    briefs := pruneDir cutoff s.briefs
    interventions := pruneDir cutoff s.interventions }

/-! ## Helper lemmas: `pyTail` -/

theorem pyTail_sublist (w : ℕ) (l : List α) : (pyTail w l).Sublist l := by
  unfold pyTail
  split
  · exact List.Sublist.refl l
  · exact List.drop_sublist _ l

theorem pyTail_nodup {l : List α} (w : ℕ) (h : l.Nodup) : (pyTail w l).Nodup :=
  (pyTail_sublist w l).nodup h

theorem pyTail_eq_self {w : ℕ} {l : List α} (h : l.length ≤ w) : pyTail w l = l := by
  unfold pyTail
  split
  · rfl
  · rw [Nat.sub_eq_zero_of_le h, List.drop_zero]

theorem length_pyTail_le {w : ℕ} {l : List α} (hw : 1 ≤ w) : (pyTail w l).length ≤ w := by
  unfold pyTail
  split
  · omega
  · rw [List.length_drop]; omega

theorem length_pyTail_congr {l₁ : List α} {l₂ : List β} (w : ℕ) (h : l₁.length = l₂.length) :
    (pyTail w l₁).length = (pyTail w l₂).length := by
  unfold pyTail
  split
  · simpa using h
  · rw [List.length_drop, List.length_drop, h]

theorem pyTail_concat_getLast? (w : ℕ) (l : List α) (a : α) :
    (pyTail w (l ++ [a])).getLast? = some a := by
  unfold pyTail
  split
  · exact List.getLast?_concat l
  · have hle : (l ++ [a]).length - w ≤ l.length := by
      simp only [List.length_append, List.length_singleton]; omega
    rw [List.drop_append_eq_append_drop, Nat.sub_eq_zero_of_le hle, List.drop_zero,
      List.getLast?_concat]

theorem pyTail_concat_ne_nil (w : ℕ) (l : List α) (a : α) : pyTail w (l ++ [a]) ≠ [] := by
  intro h
  have := pyTail_concat_getLast? w l a
  rw [h] at this
  exact Option.noConfusion this

theorem mem_of_getLast?_eq {l : List α} {a : α} (h : l.getLast? = some a) : a ∈ l := by
  cases l with
  | nil => exact Option.noConfusion h
  | cons x t => exact List.mem_of_mem_getLast? h

/-- The slide-window identity behind re-ingestion: appending `v₁`, windowing,
popping the last element and appending `v₂` is the same as appending `v₂`
directly. -/
theorem pyTail_dropLast_concat (w : ℕ) (l : List ℚ) (v₁ v₂ : ℚ) :
    pyTail w ((pyTail w (l ++ [v₁])).dropLast ++ [v₂]) = pyTail w (l ++ [v₂]) := by
  by_cases hw : w = 0
  · subst hw
    unfold pyTail
    simp
  · by_cases hlen : l.length + 1 ≤ w
    · rw [pyTail_eq_self (show (l ++ [v₁]).length ≤ w by simp; omega), List.dropLast_concat]
    · have h1 : pyTail w (l ++ [v₁]) = l.drop (l.length + 1 - w) ++ [v₁] := by
        unfold pyTail
        rw [if_neg hw, List.drop_append_eq_append_drop]
        simp only [List.length_append, List.length_singleton]
        rw [show l.length + 1 - w - l.length = 0 by omega, List.drop_zero]
      have h2 : pyTail w (l ++ [v₂]) = l.drop (l.length + 1 - w) ++ [v₂] := by
        unfold pyTail
        rw [if_neg hw, List.drop_append_eq_append_drop]
        simp only [List.length_append, List.length_singleton]
        rw [show l.length + 1 - w - l.length = 0 by omega, List.drop_zero]
      rw [h1, List.dropLast_concat, h2]
      apply pyTail_eq_self
      rw [List.length_append, List.length_drop, List.length_singleton]
      omega

/-! ## Helper lemmas: association lists -/

theorem lookup_mapVal (f : β → γ) (l : List (String × β)) (k : String) :
    List.lookup k (l.map (fun p => (p.1, f p.2))) = (List.lookup k l).map f := by
  induction l with
  | nil => rfl
  | cons p t ih =>
    obtain ⟨k', v⟩ := p
    simp only [List.map_cons]
    cases h : (k == k') with
    | true => simp [List.lookup, h]
    | false => simp [List.lookup, h, ih]

theorem lookup_alUpdate_self (k : String) (f : β → β) (l : List (String × β)) :
    List.lookup k (alUpdate k f l) = (List.lookup k l).map f := by
  induction l with
  | nil => rfl
  | cons p t ih =>
    obtain ⟨k', v⟩ := p
    by_cases h : k' = k
    · subst h
      simp [alUpdate, List.lookup]
    · have hf : (k == k') = false := by
        simp [Ne.symm h]
      simp [alUpdate, if_neg h, List.lookup, hf, ih]

theorem lookup_alUpdate_ne {k k' : String} (h : k' ≠ k) (f : β → β) (l : List (String × β)) :
    List.lookup k' (alUpdate k f l) = List.lookup k' l := by
  induction l with
  | nil => rfl
  | cons p t ih =>
    obtain ⟨k'', v⟩ := p
    by_cases hk : k'' = k
    · subst hk
      have hf : (k' == k'') = false := by simp [h]
      simp [alUpdate, List.lookup, hf]
    · cases hkk : (k' == k'') with
      | true => simp [alUpdate, if_neg hk, List.lookup, hkk]
      | false => simp [alUpdate, if_neg hk, List.lookup, hkk, ih]

theorem lookup_append (k : String) (l₁ l₂ : List (String × β)) :
    List.lookup k (l₁ ++ l₂) =
      ((List.lookup k l₁).rec (List.lookup k l₂) (fun v => some v) : Option β) := by
  induction l₁ with
  | nil => rfl
  | cons p t ih =>
    obtain ⟨k', v⟩ := p
    simp only [List.cons_append]
    cases h : (k == k') with
    | true => simp [List.lookup, h]
    | false => simp [List.lookup, h, ih]

theorem lookup_mem {l : List (String × β)} {k : String} {v : β}
    (h : List.lookup k l = some v) : (k, v) ∈ l := by
  induction l with
  | nil => exact Option.noConfusion h
  | cons p t ih =>
    obtain ⟨k', v'⟩ := p
    by_cases hk : (k == k') = true
    · simp only [List.lookup, hk] at h
      obtain rfl := Option.some.inj h
      have : k = k' := by simpa using hk
      subst this
      exact List.mem_cons_self _ _
    · rw [Bool.not_eq_true] at hk
      simp only [List.lookup, hk] at h
      exact List.mem_cons_of_mem _ (ih h)

/-! ## Helper lemmas: the metric-update fold -/

theorem lookup_applyMetric_ne {k : String} {kv : String × Option ℚ} (h : k ≠ kv.1)
    (w : ℕ) (acc : List (String × MetricData)) :
    List.lookup k (applyMetric w acc kv) = List.lookup k acc := by
  obtain ⟨k', ov⟩ := kv
  cases ov with
  | none => rfl
  | some v =>
    simp only [applyMetric]
    split
    · exact lookup_alUpdate_ne h _ _
    · rfl

theorem lookup_applyMetric_isSome (k : String) (kv : String × Option ℚ)
    (w : ℕ) (acc : List (String × MetricData)) :
    (List.lookup k (applyMetric w acc kv)).isSome = (List.lookup k acc).isSome := by
  obtain ⟨k', ov⟩ := kv
  cases ov with
  | none => rfl
  | some v =>
    simp only [applyMetric]
    split
    · by_cases h : k = k'
      · subst h
        rw [lookup_alUpdate_self]
        cases List.lookup k acc <;> rfl
      · rw [lookup_alUpdate_ne h]
    · rfl

theorem lookup_foldl_applyMetric_of_not_mem {k : String} {nm : List (String × Option ℚ)}
    (hnot : ∀ v, (k, some v) ∉ nm) (w : ℕ) (M : List (String × MetricData)) :
    List.lookup k (nm.foldl (applyMetric w) M) = List.lookup k M := by
  induction nm generalizing M with
  | nil => rfl
  | cons kv t ih =>
    obtain ⟨k', ov⟩ := kv
    rw [List.foldl_cons]
    have ht : ∀ v, (k, some v) ∉ t := fun v hv => hnot v (List.mem_cons_of_mem _ hv)
    rw [ih ht]
    by_cases h : k = k'
    · subst h
      cases ov with
      | none => rfl
      | some v => exact absurd (List.mem_cons_self _ _) (hnot v)
    · exact lookup_applyMetric_ne h w M

theorem lookup_foldl_applyMetric_of_mem {k : String} {v : ℚ} {nm : List (String × Option ℚ)}
    (hk : (nm.map Prod.fst).Nodup) (hmem : (k, some v) ∈ nm)
    (w : ℕ) (M : List (String × MetricData)) :
    List.lookup k (nm.foldl (applyMetric w) M) =
      (List.lookup k M).map (recomputeMetric w v) := by
  induction nm generalizing M with
  | nil => exact absurd hmem (List.not_mem_nil _)
  | cons kv t ih =>
    obtain ⟨k', ov⟩ := kv
    rw [List.map_cons, List.nodup_cons] at hk
    rw [List.foldl_cons]
    rcases List.mem_cons.mp hmem with heq | hmemt
    · cases heq
      have ht : ∀ v', (k, some v') ∉ t := by
        intro v' hv'
        exact hk.1 (List.mem_map.mpr ⟨(k, some v'), hv', rfl⟩)
      rw [lookup_foldl_applyMetric_of_not_mem ht]
      simp only [applyMetric]
      split
      · exact lookup_alUpdate_self k _ M
      · rename_i hnone
        rw [Option.not_isSome_iff_eq_none] at hnone
        rw [hnone]
        rfl
    · have hne : k ≠ k' := by
        rintro rfl
        exact hk.1 (List.mem_map.mpr ⟨(k, some v), hmemt, rfl⟩)
      rw [ih hk.2 hmemt]
      rw [lookup_applyMetric_ne hne]

/-! ## Helper lemmas: `update_baselines` phase views -/

theorem update_baselines_dates (b : Baselines) (nm : List (String × Option ℚ))
    (d : String) (w : ℕ) (t : String) :
    (update_baselines b nm d w t).dates = pyTail w (b.dates.erase d ++ [d]) := by
  by_cases h : d ∈ b.dates
  · simp [update_baselines, removeDateValues, if_pos h]
  · simp [update_baselines, removeDateValues, if_neg h, List.erase_of_not_mem h]

theorem update_baselines_metrics (b : Baselines) (nm : List (String × Option ℚ))
    (d : String) (w : ℕ) (t : String) :
    (update_baselines b nm d w t).metrics =
      nm.foldl (applyMetric w) (removeDateValues b d).metrics := rfl

theorem lookup_removeDateValues (b : Baselines) (d : String) (k : String) :
    List.lookup k (removeDateValues b d).metrics =
      (List.lookup k b.metrics).map
        (fun md => if d ∈ b.dates then popAt (b.dates.indexOf d) md else md) := by
  by_cases h : d ∈ b.dates
  · simp only [removeDateValues, if_pos h, lookup_mapVal]
  · simp only [removeDateValues, if_neg h]
    cases List.lookup k b.metrics <;> rfl

/-! ## Helper lemmas: pruning -/

theorem foldl_erase_lt (cutoff : String) :
    ∀ (todo live : List String), live.Nodup →
      todo.foldl (fun live f => if pyStrLt f cutoff then live.erase f else live) live =
        live.filter (fun x => ¬(x ∈ todo ∧ pyStrLt x cutoff = true)) := by
  intro todo
  induction todo with
  | nil =>
    intro live _
    simp
  | cons f t ih =>
    intro live hnd
    rw [List.foldl_cons]
    by_cases hf : pyStrLt f cutoff = true
    · rw [if_pos hf, ih (live.erase f) (hnd.erase f),
        List.Nodup.erase_eq_filter hnd f, List.filter_filter]
      apply List.filter_congr
      intro x _
      by_cases hxf : x = f
      · subst hxf
        simp [hf]
      · simp [hxf, List.mem_cons]
    · rw [if_neg hf, ih live hnd]
      apply List.filter_congr
      intro x _
      by_cases hxf : x = f
      · subst hxf
        simp [hf]
      · simp [hxf, List.mem_cons]

theorem pruneDir_eq_filter (cutoff : String) (files : List String) (h : files.Nodup) :
    pruneDir cutoff files = files.filter (fun x => !(pyStrLt x cutoff)) := by
  rw [pruneDir, foldl_erase_lt cutoff files files h]
  apply List.filter_congr
  intro x hx
  simp [hx]

/-- C2 (counterexample): with cutoff `2026-01-01`, pruning a store whose
derived areas hold files from 2018-2020 deletes those metric, brief, and
intervention files even though the raw area (with a recent file) is left
unchanged — derived data is *not* retained past the horizon. -/
theorem C2_counterexample :
    (prune_old_data "2026-01-01"
        ⟨["2026-01-05"], ["2020-01-01"], ["2019-01-01"], ["2018-01-01"]⟩).raw =
        ["2026-01-05"] ∧
    (prune_old_data "2026-01-01"
        ⟨["2026-01-05"], ["2020-01-01"], ["2019-01-01"], ["2018-01-01"]⟩).metricsFiles ≠
        ["2020-01-01"] ∧
    (prune_old_data "2026-01-01"
        ⟨["2026-01-05"], ["2020-01-01"], ["2019-01-01"], ["2018-01-01"]⟩).briefs ≠
        ["2019-01-01"] ∧
    (prune_old_data "2026-01-01"
        ⟨["2026-01-05"], ["2020-01-01"], ["2019-01-01"], ["2018-01-01"]⟩).interventions ≠
        ["2018-01-01"] := by
  decide

/-- C2 (amended): `prune_old_data` deletes, from **each** of the four areas —
raw snapshots, derived daily metric records, briefs, and intervention logs —
exactly the files whose date stem sorts before the retention cutoff; the
survivors of each area are the files at or after the cutoff, in order. -/
theorem C2_prune_deletes_all_areas (cutoff : String) (s : DataStore)
    (h1 : s.raw.Nodup) (h2 : s.metricsFiles.Nodup)
    (h3 : s.briefs.Nodup) (h4 : s.interventions.Nodup) :
    (prune_old_data cutoff s).raw = s.raw.filter (fun x => !(pyStrLt x cutoff)) ∧
    (prune_old_data cutoff s).metricsFiles =
      s.metricsFiles.filter (fun x => !(pyStrLt x cutoff)) ∧
    (prune_old_data cutoff s).briefs = s.briefs.filter (fun x => !(pyStrLt x cutoff)) ∧
    (prune_old_data cutoff s).interventions =
      s.interventions.filter (fun x => !(pyStrLt x cutoff)) :=
  ⟨pruneDir_eq_filter cutoff s.raw h1, pruneDir_eq_filter cutoff s.metricsFiles h2,
   pruneDir_eq_filter cutoff s.briefs h3, pruneDir_eq_filter cutoff s.interventions h4⟩

/-- C2 witness: the amended theorem applied to a concrete store. -/
theorem C2_prune_deletes_all_areas_witness :
    (prune_old_data "2026-01-01"
        ⟨["2025-12-31", "2026-01-02"], ["2025-12-30"], ["2026-02-02"], ["2020-05-05"]⟩).raw =
      ["2026-01-02"] ∧
    (prune_old_data "2026-01-01"
        ⟨["2025-12-31", "2026-01-02"], ["2025-12-30"], ["2026-02-02"], ["2020-05-05"]⟩).metricsFiles =
      [] := by
  have h := C2_prune_deletes_all_areas "2026-01-01"
    ⟨["2025-12-31", "2026-01-02"], ["2025-12-30"], ["2026-02-02"], ["2020-05-05"]⟩
    (by decide) (by decide) (by decide) (by decide)
  exact ⟨h.1.trans (by decide), h.2.1.trans (by decide)⟩

/-! ## Helper lemmas: baseline loading -/

theorem lookup_foldl_addMissing (ds : List (String × MetricData)) :
    ∀ (M : List (String × MetricData)) (k : String),
      List.lookup k (ds.foldl
          (fun acc kv => if (List.lookup kv.1 acc).isSome then acc else acc ++ [kv]) M) =
        ((List.lookup k M).rec (List.lookup k ds) (fun v => some v) : Option MetricData) := by
  induction ds with
  | nil =>
    intro M k
    rw [List.foldl_nil]
    cases h : List.lookup k M <;> simp [h]
  | cons kv t ih =>
    intro M k
    obtain ⟨k', v⟩ := kv
    rw [List.foldl_cons]
    by_cases hs : (List.lookup k' M).isSome
    · rw [if_pos hs, ih M k]
      by_cases hk : k = k'
      · subst hk
        obtain ⟨w, hw⟩ := Option.isSome_iff_exists.mp hs
        rw [hw]
      · have : (k == k') = false := by simp [hk]
        cases List.lookup k M <;> simp [List.lookup, this]
    · rw [if_neg hs, ih (M ++ [(k', v)]) k, lookup_append]
      by_cases hk : k = k'
      · subst hk
        rw [Option.not_isSome_iff_eq_none] at hs
        rw [hs]
        simp [List.lookup]
      · have hf : (k == k') = false := by simp [hk]
        cases List.lookup k M <;> simp [List.lookup, hf]

theorem load_baselines_some (p : PBaselines) :
    load_baselines (some p) =
      { p with metrics := some (get_default_baselines.metrics.foldl
          (fun acc kv => if (List.lookup kv.1 acc).isSome then acc else acc ++ [kv])
          (p.metrics.getD [])) } := rfl

/-- C9: loading persisted baselines returns every persisted metric entry
untouched (`values`, `mean`, `std` as stored, including keys unknown to the
default schema), leaves all non-metric fields unchanged, and adds every
default-schema key that is absent from the persisted set with its default
stub. -/
theorem C9_load_baselines_migration (p : PBaselines) :
    (load_baselines (some p)).last_updated = p.last_updated ∧
    (load_baselines (some p)).dates = p.dates ∧
    (load_baselines (some p)).data_points = p.data_points ∧
    (load_baselines (some p)).window_days = p.window_days ∧
    (∀ k md, List.lookup k (p.metrics.getD []) = some md →
      List.lookup k ((load_baselines (some p)).metrics.getD []) = some md) ∧
    (∀ k dmd, List.lookup k get_default_baselines.metrics = some dmd →
      List.lookup k (p.metrics.getD []) = none →
      List.lookup k ((load_baselines (some p)).metrics.getD []) = some dmd) := by
  rw [load_baselines_some p]
  refine ⟨rfl, rfl, rfl, rfl, ?_, ?_⟩
  · intro k md hmd
    rw [Option.getD_some, lookup_foldl_addMissing, hmd]
  · intro k dmd hdmd hnone
    rw [Option.getD_some, lookup_foldl_addMissing, hnone, hdmd]

/-- C9 witness: a persisted set missing `workout_calories` but holding data
for `sleep_score` (and a key unknown to the schema) is returned with the
stored entries intact and the missing default added. -/
theorem C9_load_baselines_migration_witness :
    List.lookup "sleep_score"
        ((load_baselines (some ⟨some "2026-01-14", ["2026-01-14"], 1, 60,
          some [("sleep_score", ⟨80, 0, [80]⟩), ("legacy_metric", ⟨1, 2, [3]⟩)]⟩)).metrics.getD [])
      = some ⟨80, 0, [80]⟩ ∧
    List.lookup "legacy_metric"
        ((load_baselines (some ⟨some "2026-01-14", ["2026-01-14"], 1, 60,
          some [("sleep_score", ⟨80, 0, [80]⟩), ("legacy_metric", ⟨1, 2, [3]⟩)]⟩)).metrics.getD [])
      = some ⟨1, 2, [3]⟩ ∧
    List.lookup "workout_calories"
        ((load_baselines (some ⟨some "2026-01-14", ["2026-01-14"], 1, 60,
          some [("sleep_score", ⟨80, 0, [80]⟩), ("legacy_metric", ⟨1, 2, [3]⟩)]⟩)).metrics.getD [])
      = some ⟨200, 150, []⟩ := by
  refine ⟨?_, ?_, ?_⟩
  · exact (C9_load_baselines_migration _).2.2.2.2.1 "sleep_score" ⟨80, 0, [80]⟩ (by decide)
  · exact (C9_load_baselines_migration _).2.2.2.2.1 "legacy_metric" ⟨1, 2, [3]⟩ (by decide)
  · exact (C9_load_baselines_migration _).2.2.2.2.2 "workout_calories" ⟨200, 150, []⟩
      (by decide) (by decide)

/-! ## Evaluation of the rounding primitives on concrete inputs -/

theorem roundHalfEvenQ_eval (x : ℚ) (f : ℤ) (hf : ⌊x⌋ = f) :
    roundHalfEvenQ x =
      if x - f < 1/2 then f
      else if 1/2 < x - f then f + 1
      else if f % 2 = 0 then f else f + 1 := by
  unfold roundHalfEvenQ
  rw [hf]

/-! ## Extraction claims -/

/-- C10: when the detailed sleep source is present, a seconds-valued duration
field that is exactly `0` (deep/light/rem/total sleep, latency) extracts to
JSON null for the corresponding minutes key — indistinguishable from the
field being absent, which also yields null; `stress_high`/`recovery_high` of
0 seconds likewise map to null. -/
theorem C10_zero_duration_is_null (od : OuraData) :
    (∀ sd rest, od.sleep = sd :: rest →
      ((sd.deep_sleep_duration = some 0 →
          List.lookup "deep_sleep_minutes" (extract_metrics od) = some MVal.null) ∧
       (sd.light_sleep_duration = some 0 →
          List.lookup "light_sleep_minutes" (extract_metrics od) = some MVal.null) ∧
       (sd.rem_sleep_duration = some 0 →
          List.lookup "rem_sleep_minutes" (extract_metrics od) = some MVal.null) ∧
       (sd.total_sleep_duration = some 0 →
          List.lookup "total_sleep_minutes" (extract_metrics od) = some MVal.null) ∧
       (sd.latency = some 0 →
          List.lookup "latency_minutes" (extract_metrics od) = some MVal.null) ∧
       (sd.deep_sleep_duration = none →
          List.lookup "deep_sleep_minutes" (extract_metrics od) = some MVal.null))) ∧
    (∀ st rs, od.daily_stress = st :: rs →
      ((st.stress_high = some 0 →
          List.lookup "stress_high" (extract_metrics od) = some MVal.null) ∧
       (st.recovery_high = some 0 →
          List.lookup "recovery_high" (extract_metrics od) = some MVal.null))) := by
  obtain ⟨ds, sl, dr, da, dst, wk, hrr⟩ := od
  constructor
  · rintro sd rest rfl
    refine ⟨?_, ?_, ?_, ?_, ?_, ?_⟩ <;> intro h <;> cases ds <;>
      simp [extract_metrics, durationMinutes, h, List.lookup]
  · rintro st rs rfl
    refine ⟨?_, ?_⟩ <;> intro h <;> cases ds <;> cases sl <;> cases dr <;> cases da <;>
      simp [extract_metrics, stressMinutes, durationMinutes, h, List.lookup]

/-- C10 witness: a session with 0-second deep sleep and a stress record with
0-second `stress_high` both extract to null. -/
theorem C10_zero_duration_is_null_witness :
    List.lookup "deep_sleep_minutes" (extract_metrics { emptyOuraData with
        sleep := [{ emptySleepRec with deep_sleep_duration := some 0 }] }) = some MVal.null ∧
    List.lookup "stress_high" (extract_metrics { emptyOuraData with
        daily_stress := [⟨some 0, some 90, none⟩] }) = some MVal.null := by
  constructor
  · exact (((C10_zero_duration_is_null _).1 _ [] rfl).1 rfl)
  · exact (((C10_zero_duration_is_null _).2 _ [] rfl).1 rfl)

/-- C4 (counterexample): `stress_high` is converted with Python `round`, not
floor division: 90 seconds extracts to 2 minutes while floor division gives
1 — so not every seconds field is floor-divided. -/
theorem C4_counterexample :
    List.lookup "stress_high" (extract_metrics { emptyOuraData with
        daily_stress := [⟨some 90, none, none⟩] }) = some (MVal.num 2) ∧
    Int.fdiv 90 60 = 1 ∧
    MVal.num 2 ≠ MVal.num ((Int.fdiv 90 60 : ℤ) : ℚ) := by
  have h90 : roundHalfEvenQ ((90 : ℚ) / 60) = 2 := by
    rw [roundHalfEvenQ_eval _ 1 (by rw [Int.floor_eq_iff]; norm_num)]
    norm_num
  refine ⟨?_, by decide, ?_⟩
  · simp [extract_metrics, stressMinutes, emptyOuraData, List.lookup, h90]
  · rw [show Int.fdiv 90 60 = 1 by decide]
    intro h
    simp only [MVal.num.injEq] at h
    norm_num at h

/-- C4 (amended): the sleep-stage durations and latency of a present detailed
sleep source are converted seconds→minutes by floor division (truncation),
but the `stress_high`/`recovery_high` fields of a present stress source are
converted with Python `round` (half-to-even), not floor. -/
theorem C4_duration_conversion (od : OuraData) :
    (∀ sd rest, od.sleep = sd :: rest → ∀ s : ℤ, s ≠ 0 →
      ((sd.deep_sleep_duration = some s →
          List.lookup "deep_sleep_minutes" (extract_metrics od) =
            some (MVal.num ((Int.fdiv s 60 : ℤ) : ℚ))) ∧
       (sd.light_sleep_duration = some s →
          List.lookup "light_sleep_minutes" (extract_metrics od) =
            some (MVal.num ((Int.fdiv s 60 : ℤ) : ℚ))) ∧
       (sd.rem_sleep_duration = some s →
          List.lookup "rem_sleep_minutes" (extract_metrics od) =
            some (MVal.num ((Int.fdiv s 60 : ℤ) : ℚ))) ∧
       (sd.total_sleep_duration = some s →
          List.lookup "total_sleep_minutes" (extract_metrics od) =
            some (MVal.num ((Int.fdiv s 60 : ℤ) : ℚ))) ∧
       (sd.latency = some s →
          List.lookup "latency_minutes" (extract_metrics od) =
            some (MVal.num ((Int.fdiv s 60 : ℤ) : ℚ))))) ∧
    (∀ st rs, od.daily_stress = st :: rs → ∀ s : ℤ, s ≠ 0 →
      ((st.stress_high = some s →
          List.lookup "stress_high" (extract_metrics od) =
            some (MVal.num ((roundHalfEvenQ ((s : ℚ) / 60) : ℤ) : ℚ))) ∧
       (st.recovery_high = some s →
          List.lookup "recovery_high" (extract_metrics od) =
            some (MVal.num ((roundHalfEvenQ ((s : ℚ) / 60) : ℤ) : ℚ))))) := by
  obtain ⟨ds, sl, dr, da, dst, wk, hrr⟩ := od
  constructor
  · rintro sd rest rfl s hs
    refine ⟨?_, ?_, ?_, ?_, ?_⟩ <;> intro h <;> cases ds <;>
      simp [extract_metrics, durationMinutes, h, hs, List.lookup]
  · rintro st rs rfl s hs
    refine ⟨?_, ?_⟩ <;> intro h <;> cases ds <;> cases sl <;> cases dr <;> cases da <;>
      simp [extract_metrics, stressMinutes, durationMinutes, h, hs, List.lookup]

/-- C4 witness: a 125-second deep-sleep duration extracts to 2 minutes
(floor), and a 150-second `recovery_high` rounds half-to-even to 2. -/
theorem C4_duration_conversion_witness :
    List.lookup "deep_sleep_minutes" (extract_metrics { emptyOuraData with
        sleep := [{ emptySleepRec with deep_sleep_duration := some 125 }] }) =
      some (MVal.num 2) ∧
    List.lookup "recovery_high" (extract_metrics { emptyOuraData with
        daily_stress := [⟨none, some 150, none⟩] }) = some (MVal.num 2) := by
  have h150 : roundHalfEvenQ ((150 : ℚ) / 60) = 2 := by
    rw [roundHalfEvenQ_eval _ 2 (by rw [Int.floor_eq_iff]; norm_num)]
    norm_num
  constructor
  · refine (((C4_duration_conversion _).1 _ [] rfl 125 (by decide)).1 rfl).trans ?_
    rw [show Int.fdiv 125 60 = 2 by decide]
    norm_num
  · refine (((C4_duration_conversion _).2 _ [] rfl 150 (by decide)).2 rfl).trans ?_
    push_cast
    rw [h150]
    norm_num

/-- C6: the sleep-session selection returns either nothing or exactly one of
the fetched sessions, and a returned session always has type `"long_sleep"`
with the wake date contained in its `bedtime_end`; when no fetched session
qualifies (wrong type or wrong end date) the result is empty — never a
fallback — and detailed-sleep extraction of an empty sleep source is the
empty structure. -/
theorem C6_sleep_session_selection (wd : String) (sessions : List SleepRec) :
    ((∀ s ∈ sessions,
        ¬(pyInStr wd (s.bedtime_end.getD "") = true ∧ s.type.getD "" = "long_sleep")) →
      selectSleepSession wd sessions = []) ∧
    (∀ s, selectSleepSession wd sessions = [s] →
      s ∈ sessions ∧ pyInStr wd (s.bedtime_end.getD "") = true ∧
        s.type.getD "" = "long_sleep") ∧
    (selectSleepSession wd sessions = [] ∨ ∃ s, selectSleepSession wd sessions = [s]) ∧
    (∀ od : OuraData, od.sleep = [] → extract_detailed_sleep od = []) := by
  refine ⟨?_, ?_, ?_, ?_⟩
  · intro h
    unfold selectSleepSession
    have hnone : sessions.reverse.find? (fun session =>
        pyInStr wd (session.bedtime_end.getD "") &&
          (session.type.getD "") == "long_sleep") = none := by
      rw [List.find?_eq_none]
      intro x hx
      have hx' := h x (List.mem_reverse.mp hx)
      simp only [Bool.and_eq_true, beq_iff_eq]
      exact fun hc => hx' ⟨hc.1, hc.2⟩
    rw [hnone]
  · intro s hs
    unfold selectSleepSession at hs
    cases hfind : sessions.reverse.find? (fun session =>
        pyInStr wd (session.bedtime_end.getD "") &&
          (session.type.getD "") == "long_sleep") with
    | none => rw [hfind] at hs; exact absurd hs (by simp)
    | some s' =>
      rw [hfind] at hs
      obtain rfl : s' = s := by simpa using hs
      have hp := List.find?_some hfind
      have hm := List.mem_reverse.mp (List.mem_of_find?_eq_some hfind)
      rw [Bool.and_eq_true, beq_iff_eq] at hp
      exact ⟨hm, hp.1, hp.2⟩
  · unfold selectSleepSession
    cases sessions.reverse.find? (fun session =>
        pyInStr wd (session.bedtime_end.getD "") &&
          (session.type.getD "") == "long_sleep") with
    | none => exact Or.inl rfl
    | some s => exact Or.inr ⟨s, rfl⟩
  · intro od h
    obtain ⟨ds, sl, dr, da, dst, wk, hrr⟩ := od
    cases h
    rfl

/-- C6 witness: among three candidate sessions of types `rest`, `sleep`, and
`long_sleep` ending on wake date `2026-01-08`, selection takes the
`long_sleep` one, and with only non-qualifying sessions it returns `[]`. -/
theorem C6_sleep_session_selection_witness :
    ((({ emptySleepRec with
        bedtime_end := some "2026-01-08T07:15:00-05:00", type := some "long_sleep" } : SleepRec) ∈
      [{ emptySleepRec with
          bedtime_end := some "2026-01-08T02:00:00-05:00", type := some "rest" },
       { emptySleepRec with
          bedtime_end := some "2026-01-08T03:30:00-05:00", type := some "sleep" },
       { emptySleepRec with
          bedtime_end := some "2026-01-08T07:15:00-05:00", type := some "long_sleep" }]) ∧
      pyInStr "2026-01-08"
        (({ emptySleepRec with
            bedtime_end := some "2026-01-08T07:15:00-05:00",
            type := some "long_sleep" } : SleepRec).bedtime_end.getD "") = true ∧
      ({ emptySleepRec with
          bedtime_end := some "2026-01-08T07:15:00-05:00",
          type := some "long_sleep" } : SleepRec).type.getD "" = "long_sleep") ∧
    selectSleepSession "2026-01-08"
      [{ emptySleepRec with
          bedtime_end := some "2026-01-08T02:00:00-05:00", type := some "rest" },
       { emptySleepRec with
          bedtime_end := some "2026-01-07T07:10:00-05:00", type := some "long_sleep" },
       { emptySleepRec with
          bedtime_end := some "2026-01-08T03:30:00-05:00", type := some "sleep" }] = [] := by
  constructor
  · exact (C6_sleep_session_selection "2026-01-08" _).2.1 _ (by decide)
  · exact (C6_sleep_session_selection "2026-01-08" _).1 (by decide)

/-! ## Helper lemmas: `pyDictUpdate` -/

theorem lookup_eq_none_of_not_key {t : List (String × β)} {k : String}
    (h : ∀ p ∈ t, p.1 ≠ k) : List.lookup k t = none := by
  induction t with
  | nil => rfl
  | cons p t ih =>
    obtain ⟨k', v⟩ := p
    have hne : k' ≠ k := h (k', v) (List.mem_cons_self _ _)
    have : (k == k') = false := by simp [Ne.symm hne]
    simp [List.lookup, this, ih (fun q hq => h q (List.mem_cons_of_mem _ hq))]

theorem lookup_pyDictUpdate_of_not_key {upd : List (String × β)} {k : String}
    (h : List.lookup k upd = none) :
    ∀ base, List.lookup k (pyDictUpdate base upd) = List.lookup k base := by
  induction upd with
  | nil => intro base; rfl
  | cons p t ih =>
    intro base
    obtain ⟨k', v'⟩ := p
    have hk : (k == k') = false := by
      cases hkk : (k == k') with
      | false => rfl
      | true => simp [List.lookup, hkk] at h
    have ht : List.lookup k t = none := by
      simpa [List.lookup, hk] using h
    have hne : k ≠ k' := by simpa using hk
    show List.lookup k (pyDictUpdate _ t) = _
    rw [ih ht]
    by_cases hs : (List.lookup k' base).isSome
    · simp only [pyDictUpdate, List.foldl_cons, if_pos hs]
      exact lookup_alUpdate_ne hne _ _
    · simp only [pyDictUpdate, List.foldl_cons, if_neg hs]
      rw [lookup_append]
      cases hb : List.lookup k base <;> simp [List.lookup, hk]

theorem lookup_pyDictUpdate_of_key {upd : List (String × β)}
    (hnd : (upd.map Prod.fst).Nodup) {k : String} {v : β}
    (hv : List.lookup k upd = some v) :
    ∀ base, List.lookup k (pyDictUpdate base upd) = some v := by
  induction upd with
  | nil => exact absurd hv (by simp [List.lookup])
  | cons p t ih =>
    intro base
    obtain ⟨k', v'⟩ := p
    rw [List.map_cons, List.nodup_cons] at hnd
    by_cases hkk : (k == k') = true
    · obtain rfl : k = k' := by simpa using hkk
      obtain rfl : v' = v := by simpa [List.lookup] using hv
      have ht : List.lookup k t = none :=
        lookup_eq_none_of_not_key (fun q hq hqk =>
          hnd.1 (List.mem_map.mpr ⟨q, hq, hqk⟩))
      show List.lookup k (pyDictUpdate _ t) = _
      rw [lookup_pyDictUpdate_of_not_key ht]
      show List.lookup k
        (if (List.lookup k base).isSome then alUpdate k (fun _ => v') base
         else base ++ [(k, v')]) = some v'
      by_cases hs : (List.lookup k base).isSome
      · rw [if_pos hs, lookup_alUpdate_self]
        obtain ⟨w, hw⟩ := Option.isSome_iff_exists.mp hs
        rw [hw]
        rfl
      · rw [if_neg hs, lookup_append]
        rw [Option.not_isSome_iff_eq_none] at hs
        rw [hs]
        simp [List.lookup]
    · rw [Bool.not_eq_true] at hkk
      have ht : List.lookup k t = some v := by simpa [List.lookup, hkk] using hv
      exact ih hnd.2 ht _

/-! ## Daily record store claim -/

/-- C7: `save_daily_metrics` with `merge=true` resolves the three content
fields independently — a supplied summary is shallow-merged key-by-key into
the existing summary (caller's keys win, other existing keys survive),
supplied detailed fields replace, unsupplied fields keep the existing
record's value, absent-record unsupplied fields default to empty — and with
`merge=false` the record is exactly the supplied fields with empty
defaults. -/
theorem C7_merge_write_semantics (file : Option StoredRecord) (date : String)
    (m : List (String × MVal)) (hnd : (m.map Prod.fst).Nodup)
    (ds : Option (List (String × MVal))) (dw : Option (List (List (String × MVal)))) :
    (∀ ex es, file = some ex → ex.summary = some es →
      ((save_daily_metrics file date (some m) ds dw true).summary = pyDictUpdate es m ∧
       (∀ k v, List.lookup k m = some v →
         List.lookup k (save_daily_metrics file date (some m) ds dw true).summary = some v) ∧
       (∀ k, List.lookup k m = none →
         List.lookup k (save_daily_metrics file date (some m) ds dw true).summary =
           List.lookup k es))) ∧
    (∀ d, (save_daily_metrics file date (some m) (some d) dw true).detailed_sleep = d) ∧
    (∀ wl, (save_daily_metrics file date (some m) ds (some wl) true).detailed_workouts = wl) ∧
    (∀ ex, file = some ex →
      ((save_daily_metrics file date none ds dw true).summary = ex.summary.getD [] ∧
       (save_daily_metrics file date (some m) none dw true).detailed_sleep =
         ex.detailed_sleep.getD [] ∧
       (save_daily_metrics file date (some m) ds none true).detailed_workouts =
         ex.detailed_workouts.getD [])) ∧
    (file = none →
      save_daily_metrics file date (some m) none none true = ⟨date, m, [], []⟩) ∧
    (save_daily_metrics file date (some m) ds dw false = ⟨date, m, ds.getD [], dw.getD []⟩) := by
  refine ⟨?_, ?_, ?_, ?_, ?_, ?_⟩
  · rintro ex es rfl hes
    obtain ⟨exs, exds, exdw⟩ := ex
    cases hes
    refine ⟨rfl, ?_, ?_⟩
    · intro k v hv
      exact lookup_pyDictUpdate_of_key hnd hv es
    · intro k hk
      exact lookup_pyDictUpdate_of_not_key hk es
  · intro d
    rcases file with _ | ⟨exs, exds, exdw⟩ <;> rfl
  · intro wl
    rcases file with _ | ⟨exs, exds, exdw⟩ <;> rfl
  · rintro ⟨exs, exds, exdw⟩ rfl
    exact ⟨rfl, rfl, rfl⟩
  · rintro rfl
    rfl
  · rcases file with _ | ex <;> rfl

/-- C7 witness: merging `{"a": 1}` into a record holding `{"b": 2}` and one
workout yields `{"b": 2, "a": 1}` with the workouts untouched; the same
write with `merge=false` resets the workouts. -/
theorem C7_merge_write_semantics_witness :
    (save_daily_metrics (some ⟨some [("b", MVal.num 2)], none, some [[("w", MVal.num 1)]]⟩)
        "2026-01-15" (some [("a", MVal.num 1)]) none none true).summary =
      [("b", MVal.num 2), ("a", MVal.num 1)] ∧
    List.lookup "a" (save_daily_metrics
        (some ⟨some [("b", MVal.num 2)], none, some [[("w", MVal.num 1)]]⟩)
        "2026-01-15" (some [("a", MVal.num 1)]) none none true).summary = some (MVal.num 1) ∧
    List.lookup "b" (save_daily_metrics
        (some ⟨some [("b", MVal.num 2)], none, some [[("w", MVal.num 1)]]⟩)
        "2026-01-15" (some [("a", MVal.num 1)]) none none true).summary = some (MVal.num 2) ∧
    (save_daily_metrics (some ⟨some [("b", MVal.num 2)], none, some [[("w", MVal.num 1)]]⟩)
        "2026-01-15" (some [("a", MVal.num 1)]) none none true).detailed_workouts =
      [[("w", MVal.num 1)]] ∧
    save_daily_metrics (some ⟨some [("b", MVal.num 2)], none, some [[("w", MVal.num 1)]]⟩)
        "2026-01-15" (some [("a", MVal.num 1)]) none none false =
      ⟨"2026-01-15", [("a", MVal.num 1)], [], []⟩ := by
  have h := C7_merge_write_semantics
    (some ⟨some [("b", MVal.num 2)], none, some [[("w", MVal.num 1)]]⟩)
    "2026-01-15" [("a", MVal.num 1)] (by decide) none none
  refine ⟨?_, ?_, ?_, ?_, ?_⟩
  · exact ((h.1 _ _ rfl rfl).1).trans (by decide)
  · exact (h.1 _ _ rfl rfl).2.1 "a" (MVal.num 1) (by decide)
  · exact ((h.1 _ _ rfl rfl).2.2 "b" (by decide)).trans (by decide)
  · exact (h.2.2.2.1 _ rfl).2.2.trans (by decide)
  · exact h.2.2.2.2.2.trans (by decide)

/-! ## Alignment of the parallel arrays -/

/-- The parallel-array invariant of the baselines file: every metric's
`values` list is index-aligned with `dates` (same length). -/
def Aligned (b : Baselines) : Prop :=
  ∀ p ∈ b.metrics, (p.2 : MetricData).values.length = b.dates.length

instance (b : Baselines) : Decidable (Aligned b) :=
  inferInstanceAs (Decidable (∀ p ∈ b.metrics, (p.2 : MetricData).values.length = b.dates.length))

theorem recomputeMetric_values (w : ℕ) (v : ℚ) (md : MetricData) :
    (recomputeMetric w v md).values = pyTail w (md.values ++ [v]) := by
  unfold recomputeMetric
  by_cases h2 : 2 ≤ (pyTail w (md.values ++ [v])).length
  · simp [h2]
  · by_cases h1 : (pyTail w (md.values ++ [v])).length = 1 <;> simp [h2, h1]

theorem popAt_values_of_lt {i : ℕ} {md : MetricData} (h : i < md.values.length) :
    (popAt i md).values = md.values.eraseIdx i := by
  unfold popAt
  rw [if_pos h]

theorem popAt_values_of_ge {i : ℕ} {md : MetricData} (h : ¬ i < md.values.length) :
    popAt i md = md := by
  unfold popAt
  rw [if_neg h]

/-! ## C3: `data_points` -/

/-- C3 (counterexample): updating the default baselines with an empty metric
dict leaves `data_points = 0` although `dates` now has one entry —
`data_points` is not `len(dates)`. -/
theorem C3_counterexample :
    (update_baselines get_default_baselines [] "2026-01-01" 60 "t").data_points = 0 ∧
    (update_baselines get_default_baselines [] "2026-01-01" 60 "t").dates.length = 1 ∧
    (update_baselines get_default_baselines [] "2026-01-01" 60 "t").data_points ≠
      (update_baselines get_default_baselines [] "2026-01-01" 60 "t").dates.length := by
  decide

/-- C3 (amended): after every update, `data_points` equals the length of the
`sleep_score` metric's `values` list (not of `dates`); the two coincide when
the state is aligned and `sleep_score` is supplied with a non-null value. -/
theorem C3_data_points (b : Baselines) (nm : List (String × Option ℚ))
    (d : String) (w : ℕ) (t : String) :
    ((update_baselines b nm d w t).data_points =
      ((List.lookup "sleep_score" (update_baselines b nm d w t).metrics).map
        (fun md => md.values.length)).getD 0) ∧
    (∀ v : ℚ, Aligned b → ("sleep_score", some v) ∈ nm → (nm.map Prod.fst).Nodup →
      (List.lookup "sleep_score" b.metrics).isSome →
      (update_baselines b nm d w t).data_points =
        (update_baselines b nm d w t).dates.length) := by
  constructor
  · rfl
  · intro v hA hmem hnd hsome
    obtain ⟨md0, hmd0⟩ := Option.isSome_iff_exists.mp hsome
    have hmetrics : List.lookup "sleep_score" (update_baselines b nm d w t).metrics =
        some (recomputeMetric w v
          (if d ∈ b.dates then popAt (b.dates.indexOf d) md0 else md0)) := by
      rw [update_baselines_metrics, lookup_foldl_applyMetric_of_mem hnd hmem,
        lookup_removeDateValues, hmd0]
      by_cases hd : d ∈ b.dates <;> simp [hd]
    have hlen0 : md0.values.length = b.dates.length := hA _ (lookup_mem hmd0)
    have hdp : (update_baselines b nm d w t).data_points =
        (recomputeMetric w v
          (if d ∈ b.dates then popAt (b.dates.indexOf d) md0 else md0)).values.length := by
      show ((List.lookup "sleep_score" (update_baselines b nm d w t).metrics).map
        (fun md => md.values.length)).getD 0 = _
      rw [hmetrics]
      rfl
    rw [hdp, update_baselines_dates, recomputeMetric_values]
    apply length_pyTail_congr
    by_cases hd : d ∈ b.dates
    · rw [if_pos hd]
      have hi : b.dates.indexOf d < b.dates.length := List.indexOf_lt_length.mpr hd
      rw [popAt_values_of_lt (by omega)]
      have he : (md0.values.eraseIdx (b.dates.indexOf d)).length = md0.values.length - 1 := by
        rw [List.length_eraseIdx,
          if_pos (show b.dates.indexOf d < md0.values.length by omega)]
      rw [List.length_append, List.length_append, he, List.length_erase_of_mem hd, hlen0]
      simp
    · rw [if_neg hd, List.erase_of_not_mem hd, List.length_append, List.length_append, hlen0]
      simp

/-- C3 witness: the amended theorem at the spec's two-day scenario — after
updating an aligned one-day state with a non-null `sleep_score`,
`data_points` equals `len(dates) = 2`. -/
theorem C3_data_points_witness :
    (update_baselines
        { last_updated := none, dates := ["2026-01-01"], data_points := 1, window_days := 60,
          metrics := [("sleep_score", ⟨80, 0, [80]⟩)] }
        [("sleep_score", some 70)] "2026-01-02" 60 "t").data_points =
      (update_baselines
        { last_updated := none, dates := ["2026-01-01"], data_points := 1, window_days := 60,
          metrics := [("sleep_score", ⟨80, 0, [80]⟩)] }
        [("sleep_score", some 70)] "2026-01-02" 60 "t").dates.length ∧
    (update_baselines
        { last_updated := none, dates := ["2026-01-01"], data_points := 1, window_days := 60,
          metrics := [("sleep_score", ⟨80, 0, [80]⟩)] }
        [("sleep_score", some 70)] "2026-01-02" 60 "t").dates.length = 2 := by
  constructor
  · exact (C3_data_points _ _ _ _ _).2 70 (by decide) (by decide) (by decide) (by decide)
  · decide

/-! ## C8: window bound invariant -/

theorem nodup_erase_concat {l : List String} (h : l.Nodup) (d : String) :
    (l.erase d ++ [d]).Nodup := by
  rw [List.nodup_append]
  refine ⟨h.erase d, List.nodup_singleton d, ?_⟩
  intro x hx hxd
  have hxd' : x = d := by simpa using hxd
  subst hxd'
  exact ((List.Nodup.mem_erase_iff h).mp hx).1 rfl

/-- Dropping down to a suffix of length exactly `w` ignores any prefix. -/
theorem pyTail_append_left_cancel {w : ℕ} (hw : 1 ≤ w) (a X : List α)
    (hX : X.length = w) : pyTail w (a ++ X) = X := by
  unfold pyTail
  rw [if_neg (by omega)]
  have h : (a ++ X).length - w = a.length := by rw [List.length_append, hX]; omega
  rw [h, List.drop_append_eq_append_drop, List.drop_length, Nat.sub_self, List.drop_zero,
    List.nil_append]

/-- Windowing before or after the erase-then-append step gives the same
window: the window step commutes with truncation. -/
theorem pyTail_erase_concat {w : ℕ} (hw : 1 ≤ w) {s : List String} (hs : s.Nodup)
    (d : String) :
    pyTail w ((pyTail w s).erase d ++ [d]) = pyTail w (s.erase d ++ [d]) := by
  by_cases hlen : s.length ≤ w
  · rw [pyTail_eq_self hlen]
  · have hw0 : w ≠ 0 := by omega
    have htl : pyTail w s = s.drop (s.length - w) := by unfold pyTail; rw [if_neg hw0]
    set a := s.take (s.length - w) with ha
    set t := s.drop (s.length - w) with ht
    have hsplit : a ++ t = s := List.take_append_drop _ s
    have hta : t.length = w := by rw [ht, List.length_drop]; omega
    have hnd : (a ++ t).Nodup := by rw [hsplit]; exact hs
    rw [htl]
    by_cases hdt : d ∈ t
    · have hda : d ∉ a := fun hda => (List.disjoint_of_nodup_append hnd) hda hdt
      have herase : s.erase d = a ++ t.erase d := by
        conv_lhs => rw [← hsplit]
        rw [List.erase_append_right _ hda]
      have hX : (t.erase d ++ [d]).length = w := by
        rw [List.length_append, List.length_erase_of_mem hdt, hta]
        simp only [List.length_singleton]
        omega
      rw [herase, List.append_assoc, pyTail_append_left_cancel hw a _ hX,
        pyTail_eq_self (le_of_eq hX)]
    · have hterase : t.erase d = t := List.erase_of_not_mem hdt
      have herase : s.erase d = a.erase d ++ t := by
        conv_lhs => rw [← hsplit]
        by_cases hda : d ∈ a
        · rw [List.erase_append_left _ hda]
        · rw [List.erase_append_right _ hda, hterase, List.erase_of_not_mem hda]
      have htsplit : t.take 1 ++ (t.drop 1 ++ [d]) = t ++ [d] := by
        rw [← List.append_assoc, List.take_append_drop]
      have hX : (t.drop 1 ++ [d]).length = w := by
        rw [List.length_append, List.length_drop, hta]
        simp only [List.length_singleton]
        omega
      calc pyTail w (t.erase d ++ [d])
          = pyTail w (t.take 1 ++ (t.drop 1 ++ [d])) := by rw [hterase, htsplit]
        _ = t.drop 1 ++ [d] := pyTail_append_left_cancel hw _ _ hX
        _ = pyTail w ((a.erase d ++ t.take 1) ++ (t.drop 1 ++ [d])) :=
            (pyTail_append_left_cancel hw _ _ hX).symm
        _ = pyTail w (s.erase d ++ [d]) := by
            rw [List.append_assoc, htsplit, ← List.append_assoc, ← herase]

theorem foldl_dates_window {w : ℕ} (hw : 1 ≤ w) :
    ∀ (ds : List String) (acc : List String), acc.Nodup →
      ds.foldl (fun x d => pyTail w (x.erase d ++ [d])) (pyTail w acc) =
        pyTail w (ds.foldl (fun x d => x.erase d ++ [d]) acc) := by
  intro ds
  induction ds with
  | nil => intro acc _; rfl
  | cons d t ih =>
    intro acc hacc
    simp only [List.foldl_cons]
    rw [pyTail_erase_concat hw hacc d]
    exact ih (acc.erase d ++ [d]) (nodup_erase_concat hacc d)

/-- The distinct inserted dates, ordered by most recent insertion: each call
erases the date's previous occurrence and appends it at the end. -/
def lastOccurrenceOrder (ds : List String) : List String :=
  ds.foldl (fun acc d => acc.erase d ++ [d]) []

theorem lastOccurrenceOrder_nodup (ds : List String) : (lastOccurrenceOrder ds).Nodup := by
  suffices h : ∀ acc : List String, acc.Nodup →
      (ds.foldl (fun acc d => acc.erase d ++ [d]) acc).Nodup from h [] List.nodup_nil
  induction ds with
  | nil => intro acc h; exact h
  | cons d t ih =>
    intro acc hacc
    rw [List.foldl_cons]
    exact ih _ (nodup_erase_concat hacc d)

/-- A run of daily ingestions: fold `update_baselines` over a list of
`(new_metrics, date)` calls, starting from the default baselines. -/
def runUpdates (w : ℕ) (calls : List ((List (String × Option ℚ)) × String)) : Baselines :=
  calls.foldl (fun b c => update_baselines b c.1 c.2 w "") get_default_baselines

theorem runUpdates_dates (w : ℕ) (calls : List ((List (String × Option ℚ)) × String)) :
    (runUpdates w calls).dates =
      (calls.map Prod.snd).foldl (fun x d => pyTail w (x.erase d ++ [d])) [] := by
  suffices h : ∀ (cs : List ((List (String × Option ℚ)) × String)) (b : Baselines),
      (cs.foldl (fun b c => update_baselines b c.1 c.2 w "") b).dates =
        (cs.map Prod.snd).foldl (fun x d => pyTail w (x.erase d ++ [d])) b.dates from
    h calls get_default_baselines
  intro cs
  induction cs with
  | nil => intro b; rfl
  | cons c t ih =>
    intro b
    rw [List.foldl_cons, List.map_cons, List.foldl_cons, ih, update_baselines_dates]

/-- C8 (counterexample): with window size `W = 0` Python's `dates[-0:]` is
the whole list, so after one call `len(dates) = 1 > 0`: the bound
`len(dates) ≤ W` fails for `W = 0`. -/
theorem C8_counterexample :
    (update_baselines get_default_baselines [("sleep_score", some 80)]
        "2026-01-01" 0 "t").dates.length = 1 ∧
    ¬((update_baselines get_default_baselines [("sleep_score", some 80)]
        "2026-01-01" 0 "t").dates.length ≤ 0) := by
  constructor
  · rw [update_baselines_dates]
    decide
  · rw [update_baselines_dates]
    decide

/-- C8 (amended): for every window size `W ≥ 1` and every sequence of
`update_baselines` calls from the default (empty) baselines, `len(dates) ≤ W`
holds after every call, and `dates` is exactly the window-`W` tail of the
distinct inserted calendar dates ordered by most recent insertion (no
duplicates). -/
theorem C8_window_bound (w : ℕ) (hw : 1 ≤ w)
    (calls : List ((List (String × Option ℚ)) × String)) :
    (runUpdates w calls).dates.length ≤ w ∧
    (runUpdates w calls).dates = pyTail w (lastOccurrenceOrder (calls.map Prod.snd)) ∧
    (runUpdates w calls).dates.Nodup := by
  have h2 : (runUpdates w calls).dates =
      pyTail w (lastOccurrenceOrder (calls.map Prod.snd)) := by
    rw [runUpdates_dates]
    have hfold := foldl_dates_window hw (calls.map Prod.snd) [] List.nodup_nil
    rw [pyTail_eq_self (show ([] : List String).length ≤ w by simp)] at hfold
    exact hfold
  refine ⟨?_, h2, ?_⟩
  · rw [h2]; exact length_pyTail_le hw
  · rw [h2]; exact pyTail_nodup w (lastOccurrenceOrder_nodup _)

/-- C8 witness: three one-day updates with window 2 keep the two most recent
dates, in order, within the bound. -/
theorem C8_window_bound_witness :
    (runUpdates 2 [([], "2026-01-01"), ([], "2026-01-02"), ([], "2026-01-03")]).dates.length ≤ 2 ∧
    (runUpdates 2 [([], "2026-01-01"), ([], "2026-01-02"), ([], "2026-01-03")]).dates =
      ["2026-01-02", "2026-01-03"] := by
  refine ⟨(C8_window_bound 2 (by decide) _).1, ?_⟩
  exact ((C8_window_bound 2 (by decide) _).2.1).trans (by decide)

/-! ## C1: re-ingestion with correction -/

theorem indexOf_getLast_of_nodup :
    ∀ {l : List String}, l.Nodup → ∀ {d : String}, l.getLast? = some d →
      l.indexOf d = l.length - 1 := by
  intro l
  induction l with
  | nil => intro _ d h; exact Option.noConfusion h
  | cons x xs ih =>
    intro hnd d hgl
    cases xs with
    | nil =>
      obtain rfl : x = d := by simpa using hgl
      simp
    | cons y ys =>
      rw [List.getLast?_cons_cons] at hgl
      have hd : d ∈ y :: ys := mem_of_getLast?_eq hgl
      have hxd : x ≠ d := by
        rintro rfl
        exact (List.nodup_cons.mp hnd).1 hd
      rw [List.indexOf_cons_ne _ hxd, ih (List.nodup_cons.mp hnd).2 hgl]
      have : 1 ≤ (y :: ys).length := by simp
      simp only [List.length_cons]
      omega

theorem lookup_foldl_applyMetric_isSome (nm : List (String × Option ℚ)) (w : ℕ) :
    ∀ (M : List (String × MetricData)) (k : String),
      (List.lookup k (nm.foldl (applyMetric w) M)).isSome = (List.lookup k M).isSome := by
  induction nm with
  | nil => intro M k; rfl
  | cons kv t ih =>
    intro M k
    rw [List.foldl_cons, ih, lookup_applyMetric_isSome]

theorem lookup_update_baselines_isSome (b : Baselines) (nm : List (String × Option ℚ))
    (d : String) (w : ℕ) (t : String) (k : String) :
    (List.lookup k (update_baselines b nm d w t).metrics).isSome =
      (List.lookup k b.metrics).isSome := by
  rw [update_baselines_metrics, lookup_foldl_applyMetric_isSome, lookup_removeDateValues]
  cases List.lookup k b.metrics <;> rfl

theorem lookup_update_baselines_of_mem {b : Baselines} {nm : List (String × Option ℚ)}
    {d : String} {w : ℕ} {t : String} {k : String} {v : ℚ}
    (hnd : (nm.map Prod.fst).Nodup) (hmem : (k, some v) ∈ nm) :
    List.lookup k (update_baselines b nm d w t).metrics =
      (List.lookup k b.metrics).map (fun md =>
        recomputeMetric w v (if d ∈ b.dates then popAt (b.dates.indexOf d) md else md)) := by
  rw [update_baselines_metrics, lookup_foldl_applyMetric_of_mem hnd hmem,
    lookup_removeDateValues, Option.map_map]
  rfl

theorem recomputeMetric_eq_of_windowed_eq {w : ℕ} {v : ℚ} {md1 md2 : MetricData}
    (h : pyTail w (md1.values ++ [v]) = pyTail w (md2.values ++ [v])) :
    recomputeMetric w v md1 = recomputeMetric w v md2 := by
  unfold recomputeMetric
  rw [h]
  have hne := pyTail_concat_ne_nil w md2.values v
  by_cases h2 : 2 ≤ (pyTail w (md2.values ++ [v])).length
  · simp [h2]
  · have h1 : (pyTail w (md2.values ++ [v])).length = 1 := by
      have := List.length_pos_iff_ne_nil.mpr hne
      omega
    simp [h2, h1]

/-- C1 (counterexample): from a reachable state whose `sleep_score` values
list is shorter than `dates` (the metric was absent on earlier days), two
updates for the same already-present date `d2` keep **both** calls' values:
the guarded `pop` misses, so the result `[10, 20]` combines the first and
second call instead of holding only the second call's value. -/
theorem C1_counterexample :
    (List.lookup "sleep_score"
      (update_baselines
        (update_baselines
          { last_updated := none, dates := ["d1", "d2", "d3"], data_points := 0,
            window_days := 60, metrics := [("sleep_score", ⟨75, 10, []⟩)] }
          [("sleep_score", some 10)] "d2" 60 "t1")
        [("sleep_score", some 20)] "d2" 60 "t2").metrics).map (fun md => md.values) =
      some [10, 20] := by
  decide

/-- C1 (amended): from an aligned, duplicate-free state (every metric's
`values` as long as `dates`), two `update_baselines` calls for the same date
`d` leave exactly one entry for `d` in `dates`; each metric supplied
non-null on the second call ends with the second call's value as its latest
observation, and if that metric was supplied non-null on both calls its
entire stored entry equals what the second call alone would have produced —
no value of the first call survives. -/
theorem C1_update_twice (b : Baselines) (nm1 nm2 : List (String × Option ℚ))
    (d : String) (w : ℕ) (t1 t2 : String)
    (hA : Aligned b) (hN : b.dates.Nodup)
    (h1 : (nm1.map Prod.fst).Nodup) (h2 : (nm2.map Prod.fst).Nodup) :
    (update_baselines (update_baselines b nm1 d w t1) nm2 d w t2).dates.count d = 1 ∧
    (∀ k v2, (k, some v2) ∈ nm2 → (List.lookup k b.metrics).isSome →
      ∃ md, List.lookup k
          (update_baselines (update_baselines b nm1 d w t1) nm2 d w t2).metrics = some md ∧
        md.values.getLast? = some v2) ∧
    (∀ k v1 v2, (k, some v1) ∈ nm1 → (k, some v2) ∈ nm2 →
      (List.lookup k b.metrics).isSome →
      List.lookup k (update_baselines (update_baselines b nm1 d w t1) nm2 d w t2).metrics =
        List.lookup k (update_baselines b nm2 d w t2).metrics) := by
  set b1 := update_baselines b nm1 d w t1 with hb1
  have hd1 : b1.dates = pyTail w (b.dates.erase d ++ [d]) := update_baselines_dates ..
  have hnd1 : b1.dates.Nodup := by
    rw [hd1]; exact pyTail_nodup w (nodup_erase_concat hN d)
  have hlast1 : b1.dates.getLast? = some d := by
    rw [hd1]; exact pyTail_concat_getLast? ..
  have hmem1 : d ∈ b1.dates := mem_of_getLast?_eq hlast1
  have hidx1 : b1.dates.indexOf d = b1.dates.length - 1 :=
    indexOf_getLast_of_nodup hnd1 hlast1
  refine ⟨?_, ?_, ?_⟩
  · have hdates2 : (update_baselines b1 nm2 d w t2).dates =
        pyTail w (b1.dates.erase d ++ [d]) := update_baselines_dates ..
    have hnd2 : (update_baselines b1 nm2 d w t2).dates.Nodup := by
      rw [hdates2]; exact pyTail_nodup w (nodup_erase_concat hnd1 d)
    have hmem2 : d ∈ (update_baselines b1 nm2 d w t2).dates := by
      rw [hdates2]; exact mem_of_getLast?_eq (pyTail_concat_getLast? ..)
    exact List.count_eq_one_of_mem hnd2 hmem2
  · intro k v2 hv2 hsome
    have hsome1 : (List.lookup k b1.metrics).isSome := by
      rw [hb1, lookup_update_baselines_isSome]; exact hsome
    obtain ⟨md1, hmd1⟩ := Option.isSome_iff_exists.mp hsome1
    refine ⟨recomputeMetric w v2
        (if d ∈ b1.dates then popAt (b1.dates.indexOf d) md1 else md1), ?_, ?_⟩
    · rw [lookup_update_baselines_of_mem h2 hv2, hmd1]
      rfl
    · rw [recomputeMetric_values]
      exact pyTail_concat_getLast? ..
  · intro k v1 v2 hv1 hv2 hsome
    obtain ⟨md0, hmd0⟩ := Option.isSome_iff_exists.mp hsome
    have hlen0 : md0.values.length = b.dates.length := hA _ (lookup_mem hmd0)
    -- the values surviving the correction phase of a call on the base state
    set V : List ℚ := if d ∈ b.dates then md0.values.eraseIdx (b.dates.indexOf d)
      else md0.values with hV
    have hpop0 : (if d ∈ b.dates then popAt (b.dates.indexOf d) md0 else md0).values = V := by
      by_cases hd : d ∈ b.dates
      · have hi : b.dates.indexOf d < b.dates.length := List.indexOf_lt_length.mpr hd
        rw [if_pos hd, hV, if_pos hd, popAt_values_of_lt (by omega)]
      · rw [if_neg hd, hV, if_neg hd]
    have hlenV : V.length = (b.dates.erase d).length := by
      by_cases hd : d ∈ b.dates
      · have hi : b.dates.indexOf d < b.dates.length := List.indexOf_lt_length.mpr hd
        rw [hV, if_pos hd, List.length_eraseIdx, if_pos (by omega),
          List.length_erase_of_mem hd, hlen0]
      · rw [hV, if_neg hd, List.erase_of_not_mem hd, hlen0]
    -- the entry after the first call
    have hmd1 : List.lookup k b1.metrics =
        some (recomputeMetric w v1 (if d ∈ b.dates then popAt (b.dates.indexOf d) md0 else md0)) := by
      rw [hb1, lookup_update_baselines_of_mem h1 hv1, hmd0]
      rfl
    set md1 := recomputeMetric w v1 (if d ∈ b.dates then popAt (b.dates.indexOf d) md0 else md0)
      with hmd1def
    have hv1vals : md1.values = pyTail w (V ++ [v1]) := by
      rw [hmd1def, recomputeMetric_values, hpop0]
    have hlen1 : md1.values.length = b1.dates.length := by
      rw [hv1vals, hd1]
      exact length_pyTail_congr w
        (by rw [List.length_append, List.length_append, hlenV]; simp)
    have hpos1 : 1 ≤ b1.dates.length := List.length_pos_iff_ne_nil.mpr
      (fun hnil => by rw [hnil] at hmem1; exact List.not_mem_nil d hmem1)
    -- the second call pops the first call's value (the last element)
    have hpop1 : (if d ∈ b1.dates then popAt (b1.dates.indexOf d) md1 else md1).values =
        md1.values.dropLast := by
      rw [if_pos hmem1, popAt_values_of_lt (by rw [hidx1, hlen1]; omega),
        ← List.dropLast_eq_eraseIdx (by rw [hidx1, hlen1]; omega)]
    -- both sides agree
    rw [lookup_update_baselines_of_mem h2 hv2, hmd1, lookup_update_baselines_of_mem h2 hv2,
      hmd0]
    simp only [Option.map_some']
    congr 1
    apply recomputeMetric_eq_of_windowed_eq
    rw [hpop1, hv1vals, hpop0, pyTail_dropLast_concat]

/-- C1 witness: from the aligned default state, updating `2026-01-01` with
`sleep_score = 80` and then correcting it to `70` leaves one date entry and
the stored entry of the second call alone. -/
theorem C1_update_twice_witness :
    (update_baselines (update_baselines get_default_baselines
        [("sleep_score", some 80)] "2026-01-01" 60 "t1")
      [("sleep_score", some 70)] "2026-01-01" 60 "t2").dates.count "2026-01-01" = 1 ∧
    List.lookup "sleep_score"
        (update_baselines (update_baselines get_default_baselines
            [("sleep_score", some 80)] "2026-01-01" 60 "t1")
          [("sleep_score", some 70)] "2026-01-01" 60 "t2").metrics =
      List.lookup "sleep_score"
        (update_baselines get_default_baselines
          [("sleep_score", some 70)] "2026-01-01" 60 "t2").metrics := by
  have h := C1_update_twice get_default_baselines
    [("sleep_score", some 80)] [("sleep_score", some 70)] "2026-01-01" 60 "t1" "t2"
    (by decide) (by decide) (by decide) (by decide)
  exact ⟨h.1, h.2.2 "sleep_score" 80 70 (by decide) (by decide) (by decide)⟩

/-! ## C5: rounding semantics of the stored statistics -/

/-- `roundHalfEvenQ` is within half a unit of its argument. -/
theorem abs_roundHalfEvenQ_sub (y : ℚ) : |((roundHalfEvenQ y : ℤ) : ℚ) - y| ≤ 1/2 := by
  have hf1 : ((⌊y⌋ : ℤ) : ℚ) ≤ y := Int.floor_le y
  have hf2 : y < ⌊y⌋ + 1 := Int.lt_floor_add_one y
  unfold roundHalfEvenQ
  split_ifs with hc1 hc2 hc3
  · rw [abs_le]
    constructor <;> push_cast <;> linarith
  · rw [not_lt] at hc1
    rw [abs_le]
    constructor <;> push_cast <;> linarith
  · rw [not_lt] at hc1 hc2
    rw [abs_le]
    constructor <;> push_cast <;> linarith
  · rw [not_lt] at hc1 hc2
    rw [abs_le]
    constructor <;> push_cast <;> linarith

/-- `floorSqrtQ` really is the floor of the square root. -/
theorem floorSqrtQ_bounds {x : ℚ} (hx : 0 ≤ x) :
    ((floorSqrtQ x : ℕ) : ℚ) ^ 2 ≤ x ∧ x < (((floorSqrtQ x : ℕ) : ℚ) + 1) ^ 2 := by
  unfold floorSqrtQ
  set p := x.num.toNat with hp
  set q := x.den with hq
  have hq0 : 0 < q := Nat.pos_of_ne_zero x.den_nz
  have hpq : (p : ℚ) / (q : ℚ) = x := by
    have h1 : ((p : ℕ) : ℚ) = ((x.num : ℤ) : ℚ) := by
      rw [hp, ← Int.cast_natCast, Int.toNat_of_nonneg (Rat.num_nonneg.mpr hx)]
    rw [h1, hq, Rat.num_div_den]
  set m := Nat.sqrt (p * q) with hm
  have hm1 : m ^ 2 ≤ p * q := Nat.sqrt_le' _
  have hm2 : p * q < (m + 1) ^ 2 := Nat.lt_succ_sqrt' _
  set n := m / q with hn
  have hn1 : n * q ≤ m := Nat.div_mul_le_self m q
  have hn2 : m < (n + 1) * q := by
    calc m = q * n + m % q := (Nat.div_add_mod m q).symm
      _ < q * n + q := Nat.add_lt_add_left (Nat.mod_lt m hq0) _
      _ = (n + 1) * q := by ring
  have hlow : n ^ 2 * q ≤ p := by
    have h2 : n ^ 2 * q * q ≤ p * q := by
      calc n ^ 2 * q * q = (n * q) ^ 2 := by ring
        _ ≤ m ^ 2 := Nat.pow_le_pow_left hn1 2
        _ ≤ p * q := hm1
    exact Nat.le_of_mul_le_mul_right h2 hq0
  have hhigh : p < (n + 1) ^ 2 * q := by
    have h3 : p * q < (n + 1) ^ 2 * q * q := by
      calc p * q < (m + 1) ^ 2 := hm2
        _ ≤ ((n + 1) * q) ^ 2 := Nat.pow_le_pow_left hn2 2
        _ = (n + 1) ^ 2 * q * q := by ring
    exact Nat.lt_of_mul_lt_mul_right h3
  have hqQ : (0 : ℚ) < (q : ℚ) := by exact_mod_cast hq0
  constructor
  · rw [← hpq, le_div_iff hqQ]
    calc ((n : ℚ)) ^ 2 * q = ((n ^ 2 * q : ℕ) : ℚ) := by push_cast; ring
      _ ≤ ((p : ℕ) : ℚ) := by exact_mod_cast hlow
  · rw [← hpq, div_lt_iff hqQ]
    calc ((p : ℕ) : ℚ) < (((n + 1) ^ 2 * q : ℕ) : ℚ) := by exact_mod_cast hhigh
      _ = ((n : ℚ) + 1) ^ 2 * q := by push_cast; ring

/-- The rounded square root brackets `√x` within half a unit, expressed by
squaring: `(2r − 1)² ≤ 4x ≤ (2r + 1)²` (the lower bound waived at `r = 0`). -/
theorem roundSqrtHalfEven_bracket {x : ℚ} (hx : 0 ≤ x) :
    4 * x ≤ (2 * (roundSqrtHalfEven x : ℚ) + 1) ^ 2 ∧
    (roundSqrtHalfEven x = 0 ∨ (2 * (roundSqrtHalfEven x : ℚ) - 1) ^ 2 ≤ 4 * x) := by
  obtain ⟨hl, hu⟩ := floorSqrtQ_bounds hx
  unfold roundSqrtHalfEven
  split_ifs with hc1 hc2 hc3
  · constructor
    · push_cast at hc1 ⊢
      linarith
    · rcases Nat.eq_zero_or_pos (floorSqrtQ x) with h0 | hpos
      · exact Or.inl h0
      · right
        have h1 : (1 : ℚ) ≤ (floorSqrtQ x : ℚ) := by exact_mod_cast hpos
        nlinarith [hl]
  · constructor
    · push_cast at hc2 ⊢
      nlinarith [hu]
    · right
      push_cast at hc2 ⊢
      nlinarith [hc2]
  · rw [not_lt] at hc1 hc2
    have heq : ((2 * floorSqrtQ x + 1 : ℕ) : ℚ) ^ 2 = 4 * x := le_antisymm hc1 hc2
    constructor
    · push_cast at heq ⊢
      linarith
    · rcases Nat.eq_zero_or_pos (floorSqrtQ x) with h0 | hpos
      · exact Or.inl h0
      · right
        have h1 : (1 : ℚ) ≤ (floorSqrtQ x : ℚ) := by exact_mod_cast hpos
        push_cast at heq ⊢
        nlinarith
  · rw [not_lt] at hc1 hc2
    have heq : ((2 * floorSqrtQ x + 1 : ℕ) : ℚ) ^ 2 = 4 * x := le_antisymm hc1 hc2
    have hnn : (0 : ℚ) ≤ (floorSqrtQ x : ℚ) := Nat.cast_nonneg _
    constructor
    · push_cast at heq ⊢
      nlinarith
    · right
      push_cast at heq ⊢
      nlinarith

/-- `round(x, 1)` lands on a tenth of an integer within half an ulp. -/
theorem pyRound1_spec (x : ℚ) :
    ∃ r : ℤ, pyRound1 x = (r : ℚ) / 10 ∧ |(r : ℚ) - 10 * x| ≤ 1/2 :=
  ⟨roundHalfEvenQ (10 * x), rfl, abs_roundHalfEvenQ_sub (10 * x)⟩

theorem sampleVar_nonneg {l : List ℚ} (h : 2 ≤ l.length) : 0 ≤ sampleVar l := by
  unfold sampleVar
  apply div_nonneg
  · apply List.sum_nonneg
    intro x hx
    obtain ⟨y, _, rfl⟩ := List.mem_map.mp hx
    exact sq_nonneg _
  · have h2 : (2 : ℚ) ≤ (l.length : ℚ) := by exact_mod_cast h
    linarith

/-- The stored one-decimal standard deviation brackets the sample standard
deviation within half an ulp (by squaring, no real square root needed). -/
theorem stdRound1_spec {l : List ℚ} (h2 : 2 ≤ l.length) :
    ∃ n : ℕ, stdRound1 l = (n : ℚ) / 10 ∧
      400 * sampleVar l ≤ (2 * (n : ℚ) + 1) ^ 2 ∧
      (n = 0 ∨ (2 * (n : ℚ) - 1) ^ 2 ≤ 400 * sampleVar l) := by
  have hnn : (0 : ℚ) ≤ 100 * sampleVar l :=
    mul_nonneg (by norm_num) (sampleVar_nonneg h2)
  obtain ⟨hu, hl⟩ := roundSqrtHalfEven_bracket hnn
  refine ⟨roundSqrtHalfEven (100 * sampleVar l), rfl, by linarith, ?_⟩
  rcases hl with h0 | hlow
  · exact Or.inl h0
  · exact Or.inr (by linarith)

theorem recomputeMetric_of_two_le {w : ℕ} {v : ℚ} {md0 : MetricData}
    (h : 2 ≤ (pyTail w (md0.values ++ [v])).length) :
    recomputeMetric w v md0 =
      ⟨pyRound1 (qMean (pyTail w (md0.values ++ [v]))),
       stdRound1 (pyTail w (md0.values ++ [v])),
       pyTail w (md0.values ++ [v])⟩ := by
  unfold recomputeMetric
  simp [h]

theorem recomputeMetric_of_len_one {w : ℕ} {v : ℚ} {md0 : MetricData}
    (h : (pyTail w (md0.values ++ [v])).length = 1) :
    recomputeMetric w v md0 =
      ⟨(pyTail w (md0.values ++ [v])).headI, 0, pyTail w (md0.values ++ [v])⟩ := by
  unfold recomputeMetric
  simp [h]

theorem recomputeMetric_stats (w : ℕ) (v : ℚ) (md0 : MetricData) :
    (2 ≤ (recomputeMetric w v md0).values.length →
      (recomputeMetric w v md0).mean = pyRound1 (qMean (recomputeMetric w v md0).values) ∧
      (recomputeMetric w v md0).std = stdRound1 (recomputeMetric w v md0).values) ∧
    ((recomputeMetric w v md0).values.length = 1 →
      (recomputeMetric w v md0).mean = v ∧ (recomputeMetric w v md0).std = 0) := by
  have hvals : (recomputeMetric w v md0).values = pyTail w (md0.values ++ [v]) :=
    recomputeMetric_values ..
  constructor
  · intro h2
    rw [hvals] at h2
    rw [recomputeMetric_of_two_le h2]
    exact ⟨rfl, rfl⟩
  · intro h1
    rw [hvals] at h1
    rw [recomputeMetric_of_len_one h1]
    refine ⟨?_, rfl⟩
    obtain ⟨a, ha⟩ := List.length_eq_one.mp h1
    have hgl := pyTail_concat_getLast? w md0.values v
    rw [ha] at hgl ⊢
    obtain rfl : a = v := by simpa using hgl
    rfl

/-- C5 (amended): for a metric supplied non-null, after the update the
stored `mean` is the arithmetic mean of the stored values rounded to one
decimal (a tenth of an integer within half an ulp of `10·mean`), the stored
`std` is the sample (N−1) standard deviation rounded to one decimal
(bracketed by squaring), both when ≥ 2 values are stored; with exactly one
stored value `mean` is that value and `std` is 0. -/
theorem C5_statistics (b : Baselines) (nm : List (String × Option ℚ))
    (d : String) (w : ℕ) (t : String) (k : String) (v : ℚ)
    (hnd : (nm.map Prod.fst).Nodup) (hmem : (k, some v) ∈ nm)
    (hsome : (List.lookup k b.metrics).isSome) :
    ∃ md, List.lookup k (update_baselines b nm d w t).metrics = some md ∧
      (2 ≤ md.values.length →
        (∃ r : ℤ, md.mean = (r : ℚ) / 10 ∧ |(r : ℚ) - 10 * qMean md.values| ≤ 1/2) ∧
        (∃ n : ℕ, md.std = (n : ℚ) / 10 ∧
          400 * sampleVar md.values ≤ (2 * (n : ℚ) + 1) ^ 2 ∧
          (n = 0 ∨ (2 * (n : ℚ) - 1) ^ 2 ≤ 400 * sampleVar md.values))) ∧
      (md.values.length = 1 → md.mean = v ∧ md.std = 0) := by
  obtain ⟨md0, hmd0⟩ := Option.isSome_iff_exists.mp hsome
  refine ⟨recomputeMetric w v (if d ∈ b.dates then popAt (b.dates.indexOf d) md0 else md0),
    ?_, ?_, ?_⟩
  · rw [lookup_update_baselines_of_mem hnd hmem, hmd0]
    rfl
  · intro h2
    obtain ⟨hm, hs⟩ := (recomputeMetric_stats w v _).1 h2
    constructor
    · obtain ⟨r, hr1, hr2⟩ := pyRound1_spec
        (qMean (recomputeMetric w v
          (if d ∈ b.dates then popAt (b.dates.indexOf d) md0 else md0)).values)
      exact ⟨r, by rw [hm, hr1], hr2⟩
    · obtain ⟨n, hn1, hn2, hn3⟩ := stdRound1_spec h2
      exact ⟨n, by rw [hs, hn1], hn2, hn3⟩
  · exact (recomputeMetric_stats w v _).2

/-- C5 (counterexample): from four stored values `[70, 72, 75, 78]`, adding
`80` stores mean `75.0` and std `4.1` — `√17 ≈ 4.123` rounds to `4.1`, not
the claimed `3.9`. -/
theorem C5_counterexample :
    List.lookup "sleep_score"
        (update_baselines
          { last_updated := none,
            dates := ["2026-01-01", "2026-01-02", "2026-01-03", "2026-01-04"],
            data_points := 4, window_days := 60,
            metrics := [("sleep_score", ⟨75, 5, [70, 72, 75, 78]⟩)] }
          [("sleep_score", some 80)] "2026-01-05" 60 "t").metrics =
      some ⟨75, 41/10, [70, 72, 75, 78, 80]⟩ ∧
    (41 : ℚ) / 10 ≠ 39/10 := by
  have hmean : qMean [70, 72, 75, 78, 80] = 75 := by
    unfold qMean
    simp [List.sum_cons]
    norm_num
  have hround : pyRound1 (75 : ℚ) = 75 := by
    unfold pyRound1
    rw [roundHalfEvenQ_eval _ 750 (by rw [Int.floor_eq_iff]; norm_num)]
    norm_num
  have hvar : sampleVar [70, 72, 75, 78, 80] = 17 := by
    unfold sampleVar
    rw [hmean]
    simp [List.map_cons, List.sum_cons]
    norm_num
  have hsqrt : Nat.sqrt 1700 = 41 := (Nat.eq_sqrt'.mpr (by norm_num)).symm
  have hfloor : floorSqrtQ (1700 : ℚ) = 41 := by
    unfold floorSqrtQ
    rw [show (1700 : ℚ).num.toNat * (1700 : ℚ).den = 1700 from rfl,
      show (1700 : ℚ).den = 1 from rfl, hsqrt]
  have hstd : stdRound1 [70, 72, 75, 78, 80] = 41/10 := by
    unfold stdRound1
    rw [hvar, show (100 : ℚ) * 17 = 1700 by norm_num]
    unfold roundSqrtHalfEven
    rw [hfloor]
    norm_num
  constructor
  · rw [lookup_update_baselines_of_mem (by decide)
      (show ("sleep_score", some (80 : ℚ)) ∈ [("sleep_score", some (80 : ℚ))] by decide)]
    rw [show List.lookup "sleep_score"
        ({ last_updated := none,
           dates := ["2026-01-01", "2026-01-02", "2026-01-03", "2026-01-04"],
           data_points := 4, window_days := 60,
           metrics := [("sleep_score", ⟨75, 5, [70, 72, 75, 78]⟩)] } : Baselines).metrics =
        some ⟨75, 5, [70, 72, 75, 78]⟩ from by decide]
    simp only [Option.map_some']
    rw [if_neg (by decide)]
    have hlen : 2 ≤ (pyTail 60 (([70, 72, 75, 78] : List ℚ) ++ [80])).length := by decide
    rw [recomputeMetric_of_two_le hlen]
    rw [show pyTail 60 (([70, 72, 75, 78] : List ℚ) ++ [80]) = [70, 72, 75, 78, 80] from
      by decide]
    rw [hmean, hround, hstd]
  · norm_num

/-- C5 witness: the amended theorem applied to the `[70, 72, 75, 78] + 80`
state. -/
theorem C5_statistics_witness :
    ∃ md, List.lookup "sleep_score"
        (update_baselines
          { last_updated := none,
            dates := ["2026-01-01", "2026-01-02", "2026-01-03", "2026-01-04"],
            data_points := 4, window_days := 60,
            metrics := [("sleep_score", ⟨75, 5, [70, 72, 75, 78]⟩)] }
          [("sleep_score", some 80)] "2026-01-05" 60 "t").metrics = some md ∧
      (2 ≤ md.values.length →
        (∃ r : ℤ, md.mean = (r : ℚ) / 10 ∧ |(r : ℚ) - 10 * qMean md.values| ≤ 1/2) ∧
        (∃ n : ℕ, md.std = (n : ℚ) / 10 ∧
          400 * sampleVar md.values ≤ (2 * (n : ℚ) + 1) ^ 2 ∧
          (n = 0 ∨ (2 * (n : ℚ) - 1) ^ 2 ≤ 400 * sampleVar md.values))) ∧
      (md.values.length = 1 → md.mean = 80 ∧ md.std = 0) :=
  C5_statistics _ [("sleep_score", some 80)] "2026-01-05" 60 "t" "sleep_score" 80
    (by decide) (by decide) (by decide)

end OuraBot
